import Mathlib

/-!
Verification development for the Image-Format-Conversion-Assistant repository.

The definitions below are a shallow embedding of the conversion core:
`src/config.py` (constants and the conversion-combination table),
`src/file_processor.py` (FileInfo, validate_dpi, can_convert) and
`src/converter.py` (ConversionEngine.convert, _convert_by_source_format and
the per-pair handler methods).

Modelling conventions, fixed once here:

* Python strings are sequences of code points; they are modelled by Lean
  `String`, with character-level reasoning on `String.data` (`List Char`).
* External effects are modelled by an explicit environment `Env`:
  `pdfPages` models `pdf2image.convert_from_path` (`none` = the call raises,
  `some pages` = the decoded page list); `openTiff` / `openImg` model
  `PIL.Image.open` on TIFF and flat raster files; `mergeOk` models whether
  `img2pdf.convert` (together with writing the merged bytes) succeeds on a
  given ordered list of source paths; `timestamp` is the value of
  `datetime.now().strftime(...)` during the call; `errMsg` is the abstract
  text `str(e)` of a raised exception.
* Saving a decoded image can raise; this is the `saveFails` field of a
  `Frame`.  The RGBA/RGB/other colour-mode branches of the source all end in
  the same save call on the same output path, and pixel contents are not
  modelled, so the branches collapse to one save step in the embedding.
* Each handler returns its `success_files`, `failed_files` and an ordered
  event trace: file writes, file removals, progress-callback invocations and
  the dpi value handed to the rasterizer.  `os.remove` inside the
  best-effort cleanup loops is modelled as succeeding.
* The cancellation event is modelled as a constant Boolean for the whole
  run (the claims under study only concern a signal that is set before the
  run starts, or never set).  The handlers poll it exactly where the source
  polls `cancel_event.is_set()`.
* Python `int((a / b) * 100)` on the nonnegative operands that occur here is
  modelled by exact integer arithmetic `(a * 100) / b` (floor division).
-/

namespace Converter

/-- The format enumeration of `FileInfo.format_type` in `src/file_processor.py`:
pdf, jpg, png, tiff, svg, or unknown. -/
inductive Format where
  | pdf
  | jpg
  | png
  | tiff
  | svg
  | unknown
deriving DecidableEq, Repr, Fintype

/-- Colour mode of a decoded image, as far as the handlers inspect it
(`img.mode == 'RGBA'`, `img.mode != 'RGB'`). -/
inductive Mode where
  | rgba
  | rgb
  | other
deriving DecidableEq, Repr

/-- One decoded image (a PDF page, a TIFF frame, or a flat raster image):
its colour mode and whether saving it raises. -/
structure Frame where
  mode : Mode
  saveFails : Bool
deriving DecidableEq, Repr

/-- A decoded TIFF file: `PIL.Image.open` always exposes at least one frame,
so the model keeps a first frame plus the remaining frames.  `n_frames` is
`1 + restFrames.length`. -/
structure TiffImg where
  firstFrame : Frame
  restFrames : List Frame
deriving DecidableEq, Repr

/-- The `n_frames` attribute of a decoded TIFF. -/
def TiffImg.nFrames (t : TiffImg) : Nat := 1 + t.restFrames.length

/-- All frames of a decoded TIFF in page order. -/
def TiffImg.frames (t : TiffImg) : List Frame := t.firstFrame :: t.restFrames

/-- `FileInfo` of `src/file_processor.py`: `path`, `name = basename(path)` and
`ext = splitext(path)[1].lower()`, as computed at construction time. -/
structure FileInfo where
  path : String
  name : String
  ext : String
deriving DecidableEq, Repr

/-- `FileInfo.format_type`: the format derived from the lower-cased
extension (`src/file_processor.py`, lines 51-64). -/
def formatType (f : FileInfo) : Format :=
  if f.ext = ".pdf" then .pdf
  else if f.ext = ".jpg" ∨ f.ext = ".jpeg" then .jpg
  else if f.ext = ".png" then .png
  else if f.ext = ".tif" ∨ f.ext = ".tiff" then .tiff
  else if f.ext = ".svg" then .svg
  else .unknown

/-- The external world of one engine invocation (third-party decoders and
encoders, the clock, and exception texts); see the module docstring. -/
structure Env where
  pdfPages : String → Option (List Frame)
  openTiff : String → Option TiffImg
  openImg : String → Option Frame
  mergeOk : List String → Bool
  timestamp : String
  errMsg : String

/-- One observable event of a handler run: a file written, a file removed,
a progress-callback invocation `(message, percent)`, or a rasterization
request carrying the dpi value passed to `pdf2image.convert_from_path`. -/
inductive Ev where
  | write (path : String)
  | remove (path : String)
  | prog (msg : String) (pct : Int)
  | raster (dpi : Int)
deriving DecidableEq, Repr

/-- A handler outcome: `success_files`, `failed_files` (source path paired
with the exception text) and the ordered event trace. -/
structure Res where
  success : List String
  failed : List (String × String)
  trace : List Ev
deriving DecidableEq, Repr

/-- The empty outcome. -/
def Res.empty : Res := ⟨[], [], []⟩

/-- Concatenation of two outcomes, in order. -/
def Res.append (a b : Res) : Res :=
  ⟨a.success ++ b.success, a.failed ++ b.failed, a.trace ++ b.trace⟩

/- ### String helpers mirroring the `os.path` functions used by the core -/

/-- Index of the last '.' in a character list (`str.rfind('.')`), if any. -/
def rfindDot (s : List Char) : Option Nat :=
  (List.range s.length).foldl
    (fun acc i => if s.getD i ' ' = '.' then some i else acc) none

/-- Root part of `os.path.splitext(name)` for a basename (no path
separators): cut at the last dot, except when every character before that
dot is itself a dot (CPython `genericpath._splitext`). -/
def splitextRoot (name : String) : String :=
  match rfindDot name.data with
  | none => name
  | some d =>
      if (name.data.take d).any (fun c => c ≠ '.') then ⟨name.data.take d⟩
      else name

/-- `os.path.join(dir, fname)` for the posix separator, in the cases the
core exercises (`fname` is a plain filename). -/
def joinPath (dir fname : String) : String :=
  if dir = "" then fname
  else if dir.data.getLast? = some '/' then dir ++ fname
  else dir ++ "/" ++ fname

/-- One step of Python `str.replace`: scan left to right, replacing each
non-overlapping occurrence of `pat`.  Fuel-driven so that it is structurally
recursive; the callers always supply `fuel ≥ l.length`, which makes the
fuel-exhausted branch unreachable. -/
def replaceChars (pat rep : List Char) : Nat → List Char → List Char
  | _, [] => []
  | 0, l => l
  | fuel + 1, c :: rest =>
      if pat ≠ [] ∧ pat.isPrefixOf (c :: rest) then
        rep ++ replaceChars pat rep fuel (rest.drop (pat.length - 1))
      else
        c :: replaceChars pat rep fuel rest

/-- Python `s.replace(pat, rep)` (all non-overlapping occurrences, left to
right), for nonempty `pat`. -/
def pyReplace (s pat rep : String) : String :=
  ⟨replaceChars pat.data rep.data s.data.length s.data⟩

/-- Python string comparison: lexicographic on code points.  This is the
key used by `sorted(files, key=lambda x: x.name)` in the merge handlers. -/
def charListLe : List Char → List Char → Bool
  | [], _ => true
  | _ :: _, [] => false
  | a :: as, b :: bs => if a < b then true else if b < a then false else charListLe as bs

/-- Name order on `FileInfo`, i.e. Python `x.name <= y.name`. -/
def nameLe (a b : FileInfo) : Prop := charListLe a.name.data b.name.data = true

instance : DecidableRel nameLe := fun a b => by
  unfold nameLe; infer_instance

/-- `sorted(files, key=lambda x: x.name)`: Python `sorted` is a stable sort
by the given key; insertion sort is stable, so it models it exactly. -/
def sortByName (files : List FileInfo) : List FileInfo :=
  files.insertionSort nameLe

/-- Exact-arithmetic model of Python `int((a / b) * 100)` for the
nonnegative unit counters of the progress reports. -/
def pctOf (a b : Nat) : Int := Int.ofNat (a * 100 / b)

/-- The spec's wording `round((k / t) * 100)`: rounding (half up) of the
exact rational, written with integer arithmetic.  Used only to compare the
spec's formula against the program's `pctOf`. -/
def roundPct (k t : Nat) : Int := Int.ofNat ((2 * (k * 100) + t) / (2 * t))

/- ### Constants and capability table (`src/config.py`) -/

/-- `MIN_DPI` in `src/config.py`. -/
def MIN_DPI : Int := 300

/-- `MAX_DPI` in `src/config.py`. -/
def MAX_DPI : Int := 600

/-- The 19 key pairs of `CONVERSION_COMBINATIONS` in `src/config.py`. -/
def CONVERSION_COMBINATIONS : List (Format × Format) :=
  [(.pdf, .jpg), (.pdf, .png), (.pdf, .tiff),
   (.jpg, .pdf), (.jpg, .png), (.jpg, .tiff), (.jpg, .svg),
   (.png, .pdf), (.png, .jpg), (.png, .tiff), (.png, .svg),
   (.tiff, .pdf), (.tiff, .jpg), (.tiff, .png), (.tiff, .svg),
   (.svg, .pdf), (.svg, .jpg), (.svg, .png), (.svg, .tiff)]

/-- `FileProcessor.validate_dpi` (`src/file_processor.py`, lines 145-157):
clamp to `[MIN_DPI, MAX_DPI]`, returning the corrected value and whether it
was modified. -/
def validate_dpi (dpi : Int) : Int × Bool :=
  if dpi < MIN_DPI then (MIN_DPI, true)
  else if dpi > MAX_DPI then (MAX_DPI, true)
  else (dpi, false)

/-- `FileProcessor.can_convert` (`src/file_processor.py`, lines 182-187):
the GUI-side capability check, restricted to pdf/jpg/tiff. -/
def can_convert (source target : Format) : Bool :=
  if source = target then false
  else
    (source = .pdf ∨ source = .jpg ∨ source = .tiff) ∧
      (target = .pdf ∨ target = .jpg ∨ target = .tiff)

/- ### Per-file handler loops (`src/converter.py`) -/

/-- The progress message `f"正在转换: {file_info.name}"`. -/
def convMsg (name : String) : String := "正在转换: " ++ name

/-- The progress message `f"正在转换: {name} ({i+1}/{total})"` emitted after a
page of a multi-page source. -/
def pageMsg (name : String) (i total : Nat) : String :=
  "正在转换: " ++ name ++ " (" ++ toString (i + 1) ++ "/" ++ toString total ++ ")"

/-- The `for i, file_info in enumerate(files)` loop shared by the per-file
handlers: check the cancellation signal at the top of each iteration
(`break` on a constant signal means returning what was accumulated, which
at the top of the loop is nothing), then run the body and continue. -/
def perFileLoop (cancel : Bool) (one : Nat → FileInfo → Res) : Nat → List FileInfo → Res
  | _, [] => Res.empty
  | i, fi :: rest =>
      if cancel then Res.empty
      else (one i fi).append (perFileLoop cancel one (i + 1) rest)

/-- The page loop of `_pdf_to_jpg` / `_pdf_to_png` / `_pdf_to_tiff`
(`src/converter.py`, lines 257-269, 300-316, 549-561): write page `i` as
`{base}_{i+1}{ext}`, append it to the successes, and report progress
`int((i+1)/total*100)`; a failing save raises out of the page loop, leaving
the pages already appended in the success list and recording one failure
for the file. -/
def pdfPagesGo (cancel : Bool) (dir base name fpath errMsg ext : String)
    (total : Nat) : Nat → List Frame → Res
  | _, [] => Res.empty
  | i, pg :: rest =>
      if cancel then Res.empty
      else
        let outPath := joinPath dir (base ++ "_" ++ toString (i + 1) ++ ext)
        if pg.saveFails then ⟨[], [(fpath, errMsg)], []⟩
        else
          (⟨[outPath], [], [Ev.write outPath, Ev.prog (pageMsg name i total) (pctOf (i + 1) total)]⟩ :
              Res).append
            (pdfPagesGo cancel dir base name fpath errMsg ext total (i + 1) rest)

/-- Body of the `_pdf_to_jpg` file loop (`src/converter.py`, lines 243-272):
report 0%, call `convert_from_path(path, dpi=dpi, fmt='jpeg')` (the
`raster` event records the dpi it is given; `none` = it raises), then run
the page loop. -/
def pdf_to_jpg_one (env : Env) (cancel : Bool) (dir : String) (dpi : Int)
    (fi : FileInfo) : Res :=
  let base := splitextRoot fi.name
  let startEvs := [Ev.prog (convMsg fi.name) 0, Ev.raster dpi]
  match env.pdfPages fi.path with
  | none => ⟨[], [(fi.path, env.errMsg)], startEvs⟩
  | some pages =>
      let r := pdfPagesGo cancel dir base fi.name fi.path env.errMsg ".jpg" pages.length 0 pages
      ⟨r.success, r.failed, startEvs ++ r.trace⟩

/-- `_pdf_to_jpg` (`src/converter.py`, lines 231-274). -/
def pdf_to_jpg (env : Env) (cancel : Bool) (files : List FileInfo)
    (dir : String) (dpi : Int) : Res :=
  perFileLoop cancel (fun _ fi => pdf_to_jpg_one env cancel dir dpi fi) 0 files

/-- Body of the `_pdf_to_png` file loop (`src/converter.py`, lines 535-564);
identical to the jpg body except for the format and extension. -/
def pdf_to_png_one (env : Env) (cancel : Bool) (dir : String) (dpi : Int)
    (fi : FileInfo) : Res :=
  let base := splitextRoot fi.name
  let startEvs := [Ev.prog (convMsg fi.name) 0, Ev.raster dpi]
  match env.pdfPages fi.path with
  | none => ⟨[], [(fi.path, env.errMsg)], startEvs⟩
  | some pages =>
      let r := pdfPagesGo cancel dir base fi.name fi.path env.errMsg ".png" pages.length 0 pages
      ⟨r.success, r.failed, startEvs ++ r.trace⟩

/-- `_pdf_to_png` (`src/converter.py`, lines 523-566). -/
def pdf_to_png (env : Env) (cancel : Bool) (files : List FileInfo)
    (dir : String) (dpi : Int) : Res :=
  perFileLoop cancel (fun _ fi => pdf_to_png_one env cancel dir dpi fi) 0 files

/-- Body of the `_pdf_to_tiff` file loop (`src/converter.py`, lines 287-319):
`convert_from_path` is called without a dpi argument here, so no `raster`
event carries the request dpi; pages are written as `{base}_{i+1}.tif`. -/
def pdf_to_tiff_one (env : Env) (cancel : Bool) (dir : String)
    (fi : FileInfo) : Res :=
  let base := splitextRoot fi.name
  let startEvs := [Ev.prog (convMsg fi.name) 0]
  match env.pdfPages fi.path with
  | none => ⟨[], [(fi.path, env.errMsg)], startEvs⟩
  | some pages =>
      let r := pdfPagesGo cancel dir base fi.name fi.path env.errMsg ".tif" pages.length 0 pages
      ⟨r.success, r.failed, startEvs ++ r.trace⟩

/-- `_pdf_to_tiff` (`src/converter.py`, lines 276-321). -/
def pdf_to_tiff (env : Env) (cancel : Bool) (files : List FileInfo)
    (dir : String) : Res :=
  perFileLoop cancel (fun _ fi => pdf_to_tiff_one env cancel dir fi) 0 files

/-- Body of the `_jpg_to_tiff` loop (`src/converter.py`, lines 368-392):
report `int(i/total*100)` before converting, open the image (the colour-mode
branches all end in the same save call), save `{base}.tif`. -/
def jpg_to_tiff_one (env : Env) (dir : String) (total i : Nat)
    (fi : FileInfo) : Res :=
  let progEv := Ev.prog (convMsg fi.name) (pctOf i total)
  let outPath := joinPath dir (splitextRoot fi.name ++ ".tif")
  match env.openImg fi.path with
  | none => ⟨[], [(fi.path, env.errMsg)], [progEv]⟩
  | some fr =>
      if fr.saveFails then ⟨[], [(fi.path, env.errMsg)], [progEv]⟩
      else ⟨[outPath], [], [progEv, Ev.write outPath]⟩

/-- `_jpg_to_tiff` (`src/converter.py`, lines 356-394). -/
def jpg_to_tiff (env : Env) (cancel : Bool) (files : List FileInfo)
    (dir : String) : Res :=
  perFileLoop cancel (jpg_to_tiff_one env dir files.length) 0 files

/-- Body of the `_jpg_to_png` loop (`src/converter.py`, lines 580-597):
no colour-mode handling; save `{base}.png`. -/
def jpg_to_png_one (env : Env) (dir : String) (total i : Nat)
    (fi : FileInfo) : Res :=
  let progEv := Ev.prog (convMsg fi.name) (pctOf i total)
  let outPath := joinPath dir (splitextRoot fi.name ++ ".png")
  match env.openImg fi.path with
  | none => ⟨[], [(fi.path, env.errMsg)], [progEv]⟩
  | some fr =>
      if fr.saveFails then ⟨[], [(fi.path, env.errMsg)], [progEv]⟩
      else ⟨[outPath], [], [progEv, Ev.write outPath]⟩

/-- `_jpg_to_png` (`src/converter.py`, lines 568-599). -/
def jpg_to_png (env : Env) (cancel : Bool) (files : List FileInfo)
    (dir : String) : Res :=
  perFileLoop cancel (jpg_to_png_one env dir files.length) 0 files

/-- Body of the `_png_to_jpg` loop (`src/converter.py`, lines 682-704):
flatten-or-convert, then save `{base}.jpg`. -/
def png_to_jpg_one (env : Env) (dir : String) (total i : Nat)
    (fi : FileInfo) : Res :=
  let progEv := Ev.prog (convMsg fi.name) (pctOf i total)
  let outPath := joinPath dir (splitextRoot fi.name ++ ".jpg")
  match env.openImg fi.path with
  | none => ⟨[], [(fi.path, env.errMsg)], [progEv]⟩
  | some fr =>
      if fr.saveFails then ⟨[], [(fi.path, env.errMsg)], [progEv]⟩
      else ⟨[outPath], [], [progEv, Ev.write outPath]⟩

/-- `_png_to_jpg` (`src/converter.py`, lines 670-706). -/
def png_to_jpg (env : Env) (cancel : Bool) (files : List FileInfo)
    (dir : String) : Res :=
  perFileLoop cancel (png_to_jpg_one env dir files.length) 0 files

/-- Body of the `_png_to_tiff` loop (`src/converter.py`, lines 720-742):
flatten-or-convert, then save `{base}.tif`. -/
def png_to_tiff_one (env : Env) (dir : String) (total i : Nat)
    (fi : FileInfo) : Res :=
  let progEv := Ev.prog (convMsg fi.name) (pctOf i total)
  let outPath := joinPath dir (splitextRoot fi.name ++ ".tif")
  match env.openImg fi.path with
  | none => ⟨[], [(fi.path, env.errMsg)], [progEv]⟩
  | some fr =>
      if fr.saveFails then ⟨[], [(fi.path, env.errMsg)], [progEv]⟩
      else ⟨[outPath], [], [progEv, Ev.write outPath]⟩

/-- `_png_to_tiff` (`src/converter.py`, lines 708-744). -/
def png_to_tiff (env : Env) (cancel : Bool) (files : List FileInfo)
    (dir : String) : Res :=
  perFileLoop cancel (png_to_tiff_one env dir files.length) 0 files

/-- Body of the `_jpg_to_svg` loop (`src/converter.py`, lines 613-633):
an `.svg` output path is computed, but the file actually written is
`output_path.replace('.svg', '.png')` and that png path is what is appended
to the successes. -/
def jpg_to_svg_one (env : Env) (dir : String) (total i : Nat)
    (fi : FileInfo) : Res :=
  let progEv := Ev.prog (convMsg fi.name) (pctOf i total)
  let outputPath := joinPath dir (splitextRoot fi.name ++ ".svg")
  let pngPath := pyReplace outputPath ".svg" ".png"
  match env.openImg fi.path with
  | none => ⟨[], [(fi.path, env.errMsg)], [progEv]⟩
  | some fr =>
      if fr.saveFails then ⟨[], [(fi.path, env.errMsg)], [progEv]⟩
      else ⟨[pngPath], [], [progEv, Ev.write pngPath]⟩

/-- `_jpg_to_svg` (`src/converter.py`, lines 601-635). -/
def jpg_to_svg (env : Env) (cancel : Bool) (files : List FileInfo)
    (dir : String) : Res :=
  perFileLoop cancel (jpg_to_svg_one env dir files.length) 0 files

/-- Body of the `_png_to_svg` loop (`src/converter.py`, lines 758-778);
identical in structure to `jpg_to_svg_one`. -/
def png_to_svg_one (env : Env) (dir : String) (total i : Nat)
    (fi : FileInfo) : Res :=
  let progEv := Ev.prog (convMsg fi.name) (pctOf i total)
  let outputPath := joinPath dir (splitextRoot fi.name ++ ".svg")
  let pngPath := pyReplace outputPath ".svg" ".png"
  match env.openImg fi.path with
  | none => ⟨[], [(fi.path, env.errMsg)], [progEv]⟩
  | some fr =>
      if fr.saveFails then ⟨[], [(fi.path, env.errMsg)], [progEv]⟩
      else ⟨[pngPath], [], [progEv, Ev.write pngPath]⟩

/-- `_png_to_svg` (`src/converter.py`, lines 746-780). -/
def png_to_svg (env : Env) (cancel : Bool) (files : List FileInfo)
    (dir : String) : Res :=
  perFileLoop cancel (png_to_svg_one env dir files.length) 0 files

/-- Body of the `_tiff_to_svg` loop (`src/converter.py`, lines 852-877):
opens the TIFF (only the current frame is used; `n_frames` is ignored),
flattens or converts it, and writes `output_path.replace('.svg', '.png')`. -/
def tiff_to_svg_one (env : Env) (dir : String) (total i : Nat)
    (fi : FileInfo) : Res :=
  let progEv := Ev.prog (convMsg fi.name) (pctOf i total)
  let outputPath := joinPath dir (splitextRoot fi.name ++ ".svg")
  let pngPath := pyReplace outputPath ".svg" ".png"
  match env.openTiff fi.path with
  | none => ⟨[], [(fi.path, env.errMsg)], [progEv]⟩
  | some img =>
      if img.firstFrame.saveFails then ⟨[], [(fi.path, env.errMsg)], [progEv]⟩
      else ⟨[pngPath], [], [progEv, Ev.write pngPath]⟩

/-- `_tiff_to_svg` (`src/converter.py`, lines 840-879). -/
def tiff_to_svg (env : Env) (cancel : Bool) (files : List FileInfo)
    (dir : String) : Res :=
  perFileLoop cancel (tiff_to_svg_one env dir files.length) 0 files

/-- Body of the `_svg_to_jpg` loop (`src/converter.py`, lines 949-968):
the placeholder implementation writes an empty `{base}.jpg` and records it
as a success (nothing in the body can fail in the model). -/
def svg_to_jpg_one (dir : String) (total i : Nat) (fi : FileInfo) : Res :=
  let progEv := Ev.prog (convMsg fi.name) (pctOf i total)
  let outPath := joinPath dir (splitextRoot fi.name ++ ".jpg")
  ⟨[outPath], [], [progEv, Ev.write outPath]⟩

/-- `_svg_to_jpg` (`src/converter.py`, lines 936-970); the dpi parameter is
accepted but unused by the source. -/
def svg_to_jpg (cancel : Bool) (files : List FileInfo) (dir : String) : Res :=
  perFileLoop cancel (svg_to_jpg_one dir files.length) 0 files

/-- Body of the `_svg_to_png` loop (`src/converter.py`, lines 984-1003). -/
def svg_to_png_one (dir : String) (total i : Nat) (fi : FileInfo) : Res :=
  let progEv := Ev.prog (convMsg fi.name) (pctOf i total)
  let outPath := joinPath dir (splitextRoot fi.name ++ ".png")
  ⟨[outPath], [], [progEv, Ev.write outPath]⟩

/-- `_svg_to_png` (`src/converter.py`, lines 972-1005). -/
def svg_to_png (cancel : Bool) (files : List FileInfo) (dir : String) : Res :=
  perFileLoop cancel (svg_to_png_one dir files.length) 0 files

/-- Body of the `_svg_to_tiff` loop (`src/converter.py`, lines 1019-1038). -/
def svg_to_tiff_one (dir : String) (total i : Nat) (fi : FileInfo) : Res :=
  let progEv := Ev.prog (convMsg fi.name) (pctOf i total)
  let outPath := joinPath dir (splitextRoot fi.name ++ ".tif")
  ⟨[outPath], [], [progEv, Ev.write outPath]⟩

/-- `_svg_to_tiff` (`src/converter.py`, lines 1007-1040). -/
def svg_to_tiff (cancel : Bool) (files : List FileInfo) (dir : String) : Res :=
  perFileLoop cancel (svg_to_tiff_one dir files.length) 0 files

/-- The frame loop of the multi-frame branch of `_tiff_to_jpg`
(`src/converter.py`, lines 488-504): per frame, check cancellation, write
`{base}_{page+1}.jpg` and append it; a failing save raises out of the frame
loop, recording one failure for the file while the pages already appended
stay in the success list. -/
def tiffFramesGo (cancel : Bool) (dir base fpath errMsg ext : String) :
    Nat → List Frame → Res
  | _, [] => Res.empty
  | page, fr :: rest =>
      if cancel then Res.empty
      else
        let outPath := joinPath dir (base ++ "_" ++ toString (page + 1) ++ ext)
        if fr.saveFails then ⟨[], [(fpath, errMsg)], []⟩
        else
          (⟨[outPath], [], [Ev.write outPath]⟩ : Res).append
            (tiffFramesGo cancel dir base fpath errMsg ext (page + 1) rest)

/-- Body of the `_tiff_to_jpg` loop (`src/converter.py`, lines 477-519):
report `int(i/total*100)`, open the TIFF; more than one frame expands to
`{base}_{page+1}.jpg` per frame, otherwise one `{base}.jpg`. -/
def tiff_to_jpg_one (env : Env) (cancel : Bool) (dir : String) (total i : Nat)
    (fi : FileInfo) : Res :=
  let progEv := Ev.prog (convMsg fi.name) (pctOf i total)
  let base := splitextRoot fi.name
  match env.openTiff fi.path with
  | none => ⟨[], [(fi.path, env.errMsg)], [progEv]⟩
  | some img =>
      if 1 < img.nFrames then
        let r := tiffFramesGo cancel dir base fi.path env.errMsg ".jpg" 0 img.frames
        ⟨r.success, r.failed, progEv :: r.trace⟩
      else
        let outPath := joinPath dir (base ++ ".jpg")
        if img.firstFrame.saveFails then ⟨[], [(fi.path, env.errMsg)], [progEv]⟩
        else ⟨[outPath], [], [progEv, Ev.write outPath]⟩

/-- `_tiff_to_jpg` (`src/converter.py`, lines 464-521); the dpi parameter is
accepted but unused by the source. -/
def tiff_to_jpg (env : Env) (cancel : Bool) (files : List FileInfo)
    (dir : String) : Res :=
  perFileLoop cancel (tiff_to_jpg_one env cancel dir files.length) 0 files

/-- Body of the `_tiff_to_png` loop (`src/converter.py`, lines 794-836);
the png analogue of `tiff_to_jpg_one`. -/
def tiff_to_png_one (env : Env) (cancel : Bool) (dir : String) (total i : Nat)
    (fi : FileInfo) : Res :=
  let progEv := Ev.prog (convMsg fi.name) (pctOf i total)
  let base := splitextRoot fi.name
  match env.openTiff fi.path with
  | none => ⟨[], [(fi.path, env.errMsg)], [progEv]⟩
  | some img =>
      if 1 < img.nFrames then
        let r := tiffFramesGo cancel dir base fi.path env.errMsg ".png" 0 img.frames
        ⟨r.success, r.failed, progEv :: r.trace⟩
      else
        let outPath := joinPath dir (base ++ ".png")
        if img.firstFrame.saveFails then ⟨[], [(fi.path, env.errMsg)], [progEv]⟩
        else ⟨[outPath], [], [progEv, Ev.write outPath]⟩

/-- `_tiff_to_png` (`src/converter.py`, lines 782-838). -/
def tiff_to_png (env : Env) (cancel : Bool) (files : List FileInfo)
    (dir : String) : Res :=
  perFileLoop cancel (tiff_to_png_one env cancel dir files.length) 0 files

/- ### Merge handlers (target pdf) -/

/-- The temp path `_temp_page_{len(image_paths)}.jpg` used by
`_tiff_to_pdf`: the index is the running length of `image_paths` at append
time, a counter across all source files of the merge. -/
def tempPagePath (dir : String) (k : Nat) : String :=
  joinPath dir ("_temp_page_" ++ toString k ++ ".jpg")

/-- The frame loop of the multi-frame branch of `_tiff_to_pdf`
(`src/converter.py`, lines 417-424): save each frame to the next temp path;
a failing save raises out of the frame loop into the per-file handler,
keeping the temp paths already appended. -/
def tiffPdfFramesGo (dir fpath errMsg : String) :
    Nat → List Frame → List String × List (String × String) × List Ev
  | _, [] => ([], [], [])
  | k, fr :: rest =>
      let p := tempPagePath dir k
      if fr.saveFails then ([], [(fpath, errMsg)], [])
      else
        let c := tiffPdfFramesGo dir fpath errMsg (k + 1) rest
        (p :: c.1, c.2.1, Ev.write p :: c.2.2)

/-- The collection loop of `_tiff_to_pdf` (`src/converter.py`, lines
413-438): for each source file in sorted order, decode it and append one
temp page per frame (or one temp page for a flat image); per-file errors
are caught and recorded, and the loop continues with the next file.  The
counter argument is `len(image_paths)` so far. -/
def tiffPdfCollect (env : Env) (dir : String) :
    Nat → List FileInfo → List String × List (String × String) × List Ev
  | _, [] => ([], [], [])
  | k, fi :: rest =>
      match env.openTiff fi.path with
      | none =>
          let c := tiffPdfCollect env dir k rest
          (c.1, (fi.path, env.errMsg) :: c.2.1, c.2.2)
      | some img =>
          if 1 < img.nFrames then
            let c₀ := tiffPdfFramesGo dir fi.path env.errMsg k img.frames
            let c := tiffPdfCollect env dir (k + c₀.1.length) rest
            (c₀.1 ++ c.1, c₀.2.1 ++ c.2.1, c₀.2.2 ++ c.2.2)
          else
            let p := tempPagePath dir k
            if img.firstFrame.saveFails then
              let c := tiffPdfCollect env dir k rest
              (c.1, (fi.path, env.errMsg) :: c.2.1, c.2.2)
            else
              let c := tiffPdfCollect env dir (k + 1) rest
              (p :: c.1, c.2.1, Ev.write p :: c.2.2)

/-- `_tiff_to_pdf` (`src/converter.py`, lines 396-462): collect temp pages
from the name-sorted sources, then, if any page was collected, merge them
into one `output_{timestamp}.pdf` and remove the temp pages; a failing
merge raises into the outer handler, which records a `("", msg)` failure —
skipping the temp cleanup.  There is no cancellation check anywhere in this
handler. -/
def tiff_to_pdf (env : Env) (files : List FileInfo) (dir : String) : Res :=
  let startEv := Ev.prog "正在合并TIFF文件..." 0
  let c := tiffPdfCollect env dir 0 (sortByName files)
  if c.1.isEmpty then
    ⟨[], c.2.1, startEv :: c.2.2 ++ [Ev.prog "转换完成" 100]⟩
  else
    if env.mergeOk c.1 then
      let outPath := joinPath dir ("output_" ++ env.timestamp ++ ".pdf")
      ⟨[outPath], c.2.1,
        startEv :: c.2.2 ++ [Ev.write outPath] ++ c.1.map Ev.remove ++
          [Ev.prog "转换完成" 100]⟩
    else
      ⟨[], c.2.1 ++ [("", env.errMsg)], startEv :: c.2.2⟩

/-- The ordered path list handed to `img2pdf.convert` by `_jpg_to_pdf` /
`_png_to_pdf`: the paths of the name-sorted group. -/
def mergeImagePaths (files : List FileInfo) : List String :=
  (sortByName files).map FileInfo.path

/-- `_jpg_to_pdf` (`src/converter.py`, lines 323-354): merge the whole
name-sorted group into one `output_{timestamp}.pdf`.  A failing merge
records a single `("", msg)` failure.  There is no cancellation check
anywhere in this handler. -/
def jpg_to_pdf (env : Env) (files : List FileInfo) (dir : String) : Res :=
  let startEv := Ev.prog "正在合并JPG文件..." 0
  let imagePaths := mergeImagePaths files
  let outPath := joinPath dir ("output_" ++ env.timestamp ++ ".pdf")
  if env.mergeOk imagePaths then
    ⟨[outPath], [], [startEv, Ev.write outPath, Ev.prog "转换完成" 100]⟩
  else
    ⟨[], [("", env.errMsg)], [startEv]⟩

/-- `_png_to_pdf` (`src/converter.py`, lines 637-668); identical to
`_jpg_to_pdf` up to the progress message. -/
def png_to_pdf (env : Env) (files : List FileInfo) (dir : String) : Res :=
  let startEv := Ev.prog "正在合并PNG文件..." 0
  let imagePaths := mergeImagePaths files
  let outPath := joinPath dir ("output_" ++ env.timestamp ++ ".pdf")
  if env.mergeOk imagePaths then
    ⟨[outPath], [], [startEv, Ev.write outPath, Ev.prog "转换完成" 100]⟩
  else
    ⟨[], [("", env.errMsg)], [startEv]⟩

/-- `_svg_to_pdf` (`src/converter.py`, lines 881-934): the placeholder
collects temp png paths (without ever writing them — the conversion is a
stub), then writes one empty `output_{timestamp}.pdf` if the temp list is
nonempty and attempts to remove the (nonexistent) temps; the per-file loop
does check the cancellation signal, so a pre-set signal yields an empty
temp list and no output. -/
def svg_to_pdf (env : Env) (cancel : Bool) (files : List FileInfo)
    (dir : String) : Res :=
  let startEv := Ev.prog "正在处理SVG文件..." 0
  let temps :=
    if cancel then []
    else files.map (fun fi => joinPath dir ("temp_" ++ splitextRoot fi.name ++ ".png"))
  if temps.isEmpty then
    ⟨[], [], [startEv, Ev.prog "转换完成" 100]⟩
  else
    let outPath := joinPath dir ("output_" ++ env.timestamp ++ ".pdf")
    ⟨[outPath], [],
      startEv :: Ev.write outPath :: temps.map Ev.remove ++ [Ev.prog "转换完成" 100]⟩

/- ### Engine dispatch (`src/converter.py`, lines 101-229) -/

/-- `_convert_by_source_format` (`src/converter.py`, lines 150-219): look at
the first file's format and the target format and run the matching handler;
an empty group or an unmatched pair returns `([], [])`. -/
def convert_by_source_format (env : Env) (cancel : Bool)
    (files : List FileInfo) (target : Format) (dir : String) (dpi : Int) : Res :=
  match files with
  | [] => Res.empty
  | f0 :: _ =>
      match formatType f0, target with
      | .pdf, .jpg => pdf_to_jpg env cancel files dir dpi
      | .pdf, .png => pdf_to_png env cancel files dir dpi
      | .pdf, .tiff => pdf_to_tiff env cancel files dir
      | .jpg, .pdf => jpg_to_pdf env files dir
      | .jpg, .png => jpg_to_png env cancel files dir
      | .jpg, .tiff => jpg_to_tiff env cancel files dir
      | .jpg, .svg => jpg_to_svg env cancel files dir
      | .png, .pdf => png_to_pdf env files dir
      | .png, .jpg => png_to_jpg env cancel files dir
      | .png, .tiff => png_to_tiff env cancel files dir
      | .png, .svg => png_to_svg env cancel files dir
      | .tiff, .pdf => tiff_to_pdf env files dir
      | .tiff, .jpg => tiff_to_jpg env cancel files dir
      | .tiff, .png => tiff_to_png env cancel files dir
      | .tiff, .svg => tiff_to_svg env cancel files dir
      | .svg, .pdf => svg_to_pdf env cancel files dir
      | .svg, .jpg => svg_to_jpg cancel files dir
      | .svg, .png => svg_to_png cancel files dir
      | .svg, .tiff => svg_to_tiff cancel files dir
      | _, _ => Res.empty

/-- One insertion step of `_group_files_by_format` (`src/converter.py`,
lines 221-229): dict insertion order — append to an existing group or add a
new group at the end. -/
def insertGroup (gs : List (Format × List FileInfo)) (fmt : Format)
    (fi : FileInfo) : List (Format × List FileInfo) :=
  match gs with
  | [] => [(fmt, [fi])]
  | (g, l) :: rest =>
      if g = fmt then (g, l ++ [fi]) :: rest
      else (g, l) :: insertGroup rest fmt fi

/-- `_group_files_by_format` (`src/converter.py`, lines 221-229): group by
format, preserving the order of first appearance of each format and the
original relative order within each group. -/
def groupByFormat (files : List FileInfo) : List (Format × List FileInfo) :=
  files.foldl (fun gs fi => insertGroup gs (formatType fi) fi) []

/-- The multi-format group loop of `convert` (`src/converter.py`, lines
134-141): run each group, concatenate, and break after a group if the
cancellation signal is set. -/
def convertLoop (env : Env) (cancel : Bool) (target : Format) (dir : String)
    (dpi : Int) : List (Format × List FileInfo) → Res
  | [] => Res.empty
  | (_, gfiles) :: rest =>
      let r := convert_by_source_format env cancel gfiles target dir dpi
      if cancel then r
      else r.append (convertLoop env cancel target dir dpi rest)

/-- `ConversionEngine.convert` (`src/converter.py`, lines 101-148): empty
input returns the empty outcome; a batch with more than one distinct source
format is grouped and run group by group; a single-format batch is
dispatched directly.  The dpi argument is passed through unchanged. -/
def convert (env : Env) (cancel : Bool) (files : List FileInfo)
    (target : Format) (dir : String) (dpi : Int) : Res :=
  if files.isEmpty then Res.empty
  else
    if 1 < (files.map formatType).dedup.length then
      convertLoop env cancel target dir dpi (groupByFormat files)
    else
      convert_by_source_format env cancel files target dir dpi

/- ### Trace observers -/

/-- The percent values of the progress-callback invocations of a trace, in
order. -/
def progPcts (evs : List Ev) : List Int :=
  evs.filterMap fun e => match e with | .prog _ p => some p | _ => none

/-- The dpi values handed to the rasterizer in a trace, in order. -/
def rasterDpis (evs : List Ev) : List Int :=
  evs.filterMap fun e => match e with | .raster d => some d | _ => none

/-- The paths written during a trace, in order. -/
def writtenPaths (evs : List Ev) : List String :=
  evs.filterMap fun e => match e with | .write p => some p | _ => none

/-- Replay of a trace on a directory state (the list of files present):
writes create (or overwrite) a file, removals delete it, progress and
rasterization events leave the directory unchanged. -/
def presentFold (acc : List String) : List Ev → List String
  | [] => acc
  | e :: rest =>
      presentFold
        (match e with
         | .write p => if p ∈ acc then acc else acc ++ [p]
         | .remove p => acc.filter (· ≠ p)
         | _ => acc)
        rest

/-- The files present in the output directory at the end of a trace that
started from an empty directory. -/
def presentAfter (evs : List Ev) : List String :=
  presentFold [] evs

/- ### Expected-shape helpers used only in theorem statements -/

/-- The per-page output paths `{base}_{k+1}{ext}, {base}_{k+2}{ext}, ...`
(`n` of them, starting at page index `k`). -/
def pageOuts (dir base ext : String) : Nat → Nat → List String
  | _, 0 => []
  | k, n + 1 =>
      joinPath dir (base ++ "_" ++ toString (k + 1) ++ ext) ::
        pageOuts dir base ext (k + 1) n

/-- The event trace of a fully successful run of the page loop of the
PDF handlers, starting at page index `k`: each page is written first and
its progress `int((k+1)/total*100)` is reported afterwards. -/
def pageEvs (dir base name ext : String) (total : Nat) : Nat → Nat → List Ev
  | _, 0 => []
  | k, n + 1 =>
      Ev.write (joinPath dir (base ++ "_" ++ toString (k + 1) ++ ext)) ::
        Ev.prog (pageMsg name k total) (pctOf (k + 1) total) ::
          pageEvs dir base name ext total (k + 1) n

/-- The event trace of a fully successful run of a flat per-file handler:
for the file at index `i`, progress `int(i/total*100)` is reported first
(before any work on the file) and the output is written afterwards. -/
def flatOkEvs (dir ext : String) (total : Nat) : Nat → List FileInfo → List Ev
  | _, [] => []
  | i, fi :: rest =>
      Ev.prog (convMsg fi.name) (pctOf i total) ::
        Ev.write (joinPath dir (splitextRoot fi.name ++ ext)) ::
          flatOkEvs dir ext total (i + 1) rest

/-- The consecutive temp page paths `_temp_page_k.jpg ... _temp_page_{k+n-1}.jpg`. -/
def tempPaths (dir : String) : Nat → Nat → List String
  | _, 0 => []
  | k, n + 1 => tempPagePath dir k :: tempPaths dir (k + 1) n

/-- Whether `CONVERSION_COMBINATIONS` (`src/config.py`, lines 33-53)
declares the ordered pair as a supported conversion. -/
def supportedPair (source target : Format) : Bool :=
  (source, target) ∈ CONVERSION_COMBINATIONS

/-- Whether `_convert_by_source_format` (`src/converter.py`, lines 150-219)
has a handler branch for the ordered pair: the engine's capability lookup.
A `false` result is the fall-through `return [], []`. -/
def resolve (source target : Format) : Bool :=
  match source, target with
  | .pdf, .jpg => true
  | .pdf, .png => true
  | .pdf, .tiff => true
  | .jpg, .pdf => true
  | .jpg, .png => true
  | .jpg, .tiff => true
  | .jpg, .svg => true
  | .png, .pdf => true
  | .png, .jpg => true
  | .png, .tiff => true
  | .png, .svg => true
  | .tiff, .pdf => true
  | .tiff, .jpg => true
  | .tiff, .png => true
  | .tiff, .svg => true
  | .svg, .pdf => true
  | .svg, .jpg => true
  | .svg, .png => true
  | .svg, .tiff => true
  | _, _ => false

/- ### Concrete fixtures for counterexamples and witnesses -/

/-- A world with a three-page PDF at `/in/doc.pdf`, a flat PNG at
`/in/pic.png`, flat JPGs at `/in/x.jpg` and `/in/y.jpg`, a two-frame TIFF
at `/in/a.tif` whose second frame fails to save, merges that succeed, and a
fixed clock. -/
def envA : Env where
  pdfPages := fun p =>
    if p = "/in/doc.pdf" then some [⟨.rgb, false⟩, ⟨.rgb, false⟩, ⟨.rgb, false⟩]
    else none
  openTiff := fun p =>
    if p = "/in/a.tif" then some ⟨⟨.rgb, false⟩, [⟨.rgb, true⟩]⟩ else none
  openImg := fun p =>
    if p = "/in/pic.png" ∨ p = "/in/x.jpg" ∨ p = "/in/y.jpg" then
      some ⟨.rgb, false⟩
    else none
  mergeOk := fun _ => true
  timestamp := "20240101_000000"
  errMsg := "boom"

/-- A world where every TIFF decodes to a single saveable frame but the
`img2pdf` merge raises. -/
def envB : Env where
  pdfPages := fun _ => none
  openTiff := fun _ => some ⟨⟨.rgb, false⟩, []⟩
  openImg := fun _ => none
  mergeOk := fun _ => false
  timestamp := "20240101_000000"
  errMsg := "boom"

/-- Like `envB` but with a succeeding merge. -/
def envC : Env :=
  { envB with mergeOk := fun _ => true }

def docPdf : FileInfo := ⟨"/in/doc.pdf", "doc.pdf", ".pdf"⟩

def picPng : FileInfo := ⟨"/in/pic.png", "pic.png", ".png"⟩

def aTif : FileInfo := ⟨"/in/a.tif", "a.tif", ".tif"⟩

def xJpg : FileInfo := ⟨"/in/x.jpg", "x.jpg", ".jpg"⟩

def yJpg : FileInfo := ⟨"/in/y.jpg", "y.jpg", ".jpg"⟩

/-- Two distinct JPG files that share the same base name. -/
def dupJpgA : FileInfo := ⟨"/x/a.jpg", "a.jpg", ".jpg"⟩

/-- The second of the two same-named JPG files. -/
def dupJpgB : FileInfo := ⟨"/y/a.jpg", "a.jpg", ".jpg"⟩

/- ### Lemmas about the name order and `sortByName` -/

theorem charListLe_total : ∀ x y : List Char,
    charListLe x y = true ∨ charListLe y x = true
  | [], _ => Or.inl rfl
  | _ :: _, [] => Or.inr rfl
  | a :: as, b :: bs => by
      rcases lt_trichotomy a b with hab | hab | hab
      · left; simp [charListLe, hab]
      · subst hab
        rcases charListLe_total as bs with ih | ih
        · left; simp [charListLe, lt_irrefl, ih]
        · right; simp [charListLe, lt_irrefl, ih]
      · right; simp [charListLe, hab]

theorem charListLe_trans : ∀ x y z : List Char, charListLe x y = true →
    charListLe y z = true → charListLe x z = true
  | [], _, _, _, _ => rfl
  | _ :: _, [], _, hxy, _ => by simp [charListLe] at hxy
  | _ :: _, _ :: _, [], _, hyz => by simp [charListLe] at hyz
  | a :: as, b :: bs, c :: cs, hxy, hyz => by
      simp only [charListLe] at hxy hyz ⊢
      rcases lt_trichotomy a b with hab | hab | hab
      · rcases lt_trichotomy b c with hbc | hbc | hbc
        · simp [lt_trans hab hbc]
        · subst hbc; simp [hab]
        · simp [hbc, lt_asymm hbc] at hyz
      · subst hab
        simp only [lt_irrefl, if_neg (lt_irrefl a)] at hxy
        rcases lt_trichotomy a c with hac | hac | hac
        · simp [hac]
        · subst hac
          simp only [lt_irrefl, if_neg (lt_irrefl a)] at hyz ⊢
          exact charListLe_trans as bs cs hxy hyz
        · simp [hac, lt_asymm hac] at hyz
      · simp [hab, lt_asymm hab] at hxy

theorem charListLe_antisymm : ∀ x y : List Char, charListLe x y = true →
    charListLe y x = true → x = y
  | [], [], _, _ => rfl
  | [], _ :: _, _, hyx => by simp [charListLe] at hyx
  | _ :: _, [], hxy, _ => by simp [charListLe] at hxy
  | a :: as, b :: bs, hxy, hyx => by
      rcases lt_trichotomy a b with hab | hab | hab
      · simp [charListLe, hab, lt_asymm hab] at hyx
      · subst hab
        simp only [charListLe, lt_irrefl, if_neg (lt_irrefl a)] at hxy hyx
        exact congrArg (List.cons a) (charListLe_antisymm as bs hxy hyx)
      · simp [charListLe, hab, lt_asymm hab] at hxy

instance : IsTotal FileInfo nameLe :=
  ⟨fun a b => charListLe_total a.name.data b.name.data⟩

instance : IsTrans FileInfo nameLe :=
  ⟨fun a b c => charListLe_trans a.name.data b.name.data c.name.data⟩

theorem nameLe_antisymm_name {a b : FileInfo} (h1 : nameLe a b)
    (h2 : nameLe b a) : a.name = b.name := by
  have h := charListLe_antisymm _ _ h1 h2
  have ha : String.mk a.name.data = String.mk b.name.data := by rw [h]
  simpa using ha

theorem sortByName_sorted (l : List FileInfo) : (sortByName l).Sorted nameLe :=
  List.sorted_insertionSort nameLe l

theorem sortByName_perm (l : List FileInfo) : (sortByName l).Perm l :=
  List.perm_insertionSort nameLe l

/-- Two name-sorted lists that are permutations of each other and whose
names are pairwise distinct are equal. -/
theorem sorted_perm_nodup_eq : ∀ l₁ l₂ : List FileInfo, l₁.Perm l₂ →
    l₁.Sorted nameLe → l₂.Sorted nameLe → (l₁.map FileInfo.name).Nodup →
    l₁ = l₂
  | [], l₂, hp, _, _, _ => (hp.nil_eq).symm ▸ rfl
  | a :: t₁, l₂, hp, hs₁, hs₂, hnd => by
      match l₂ with
      | [] => exact absurd hp.symm.nil_eq (by simp)
      | b :: t₂ =>
          have hab : a = b := by
            by_contra hne
            have ha2 : a ∈ t₂ := by
              rcases List.mem_cons.mp
                  (hp.mem_iff.mp (List.mem_cons_self a t₁)) with h | h
              · exact absurd h hne
              · exact h
            have hb1 : b ∈ t₁ := by
              rcases List.mem_cons.mp
                  (hp.symm.mem_iff.mp (List.mem_cons_self b t₂)) with h | h
              · exact absurd h.symm hne
              · exact h
            have h1 : nameLe a b := List.rel_of_sorted_cons hs₁ b hb1
            have h2 : nameLe b a := List.rel_of_sorted_cons hs₂ a ha2
            have hname : a.name = b.name := nameLe_antisymm_name h1 h2
            have : a.name ∈ t₁.map FileInfo.name := by
              rw [hname]; exact List.mem_map_of_mem FileInfo.name hb1
            simp only [List.map_cons, List.nodup_cons] at hnd
            exact hnd.1 this
          subst hab
          have ht : t₁.Perm t₂ := hp.cons_inv
          have := sorted_perm_nodup_eq t₁ t₂ ht hs₁.of_cons hs₂.of_cons
            (by simp only [List.map_cons, List.nodup_cons] at hnd; exact hnd.2)
          rw [this]

/-- Python `sorted(..., key=name)` depends only on the multiset of files
when the names are pairwise distinct. -/
theorem sortByName_eq_of_perm {l₁ l₂ : List FileInfo} (hp : l₁.Perm l₂)
    (hnd : (l₁.map FileInfo.name).Nodup) : sortByName l₁ = sortByName l₂ := by
  refine sorted_perm_nodup_eq _ _ ?_ (sortByName_sorted l₁) (sortByName_sorted l₂) ?_
  · exact (sortByName_perm l₁).trans (hp.trans (sortByName_perm l₂).symm)
  · exact (((sortByName_perm l₁).map FileInfo.name).nodup_iff).mpr hnd

/- ### Loop and dispatch lemmas -/

theorem perFileLoop_cancel (one : Nat → FileInfo → Res) (i : Nat)
    (l : List FileInfo) : perFileLoop true one i l = Res.empty := by
  cases l <;> simp [perFileLoop]

theorem perFileLoop_mem_success (cancel : Bool) (one : Nat → FileInfo → Res) :
    ∀ (l : List FileInfo) (i : Nat) (p : String),
      p ∈ (perFileLoop cancel one i l).success →
      ∃ j fi, fi ∈ l ∧ p ∈ (one j fi).success
  | [], _, _, h => by simp [perFileLoop, Res.empty] at h
  | fi :: rest, i, p, h => by
      by_cases hc : cancel = true
      · rw [hc, perFileLoop_cancel] at h
        simp [Res.empty] at h
      · simp only [perFileLoop, if_neg hc, Res.append] at h
        rcases List.mem_append.mp h with h | h
        · exact ⟨i, fi, List.mem_cons_self _ _, h⟩
        · obtain ⟨j, fi', hmem, hp⟩ :=
            perFileLoop_mem_success cancel one rest (i + 1) p h
          exact ⟨j, fi', List.mem_cons_of_mem _ hmem, hp⟩

theorem perFileLoop_mem_trace (cancel : Bool) (one : Nat → FileInfo → Res) :
    ∀ (l : List FileInfo) (i : Nat) (e : Ev),
      e ∈ (perFileLoop cancel one i l).trace →
      ∃ j fi, fi ∈ l ∧ e ∈ (one j fi).trace
  | [], _, _, h => by simp [perFileLoop, Res.empty] at h
  | fi :: rest, i, e, h => by
      by_cases hc : cancel = true
      · rw [hc, perFileLoop_cancel] at h
        simp [Res.empty] at h
      · simp only [perFileLoop, if_neg hc, Res.append] at h
        rcases List.mem_append.mp h with h | h
        · exact ⟨i, fi, List.mem_cons_self _ _, h⟩
        · obtain ⟨j, fi', hmem, hp⟩ :=
            perFileLoop_mem_trace cancel one rest (i + 1) e h
          exact ⟨j, fi', List.mem_cons_of_mem _ hmem, hp⟩

theorem pdfPagesGo_ok (dir base name fpath errMsg ext : String) (total : Nat) :
    ∀ (pgs : List Frame) (k : Nat), (∀ pg ∈ pgs, pg.saveFails = false) →
      pdfPagesGo false dir base name fpath errMsg ext total k pgs =
        ⟨pageOuts dir base ext k pgs.length, [],
         pageEvs dir base name ext total k pgs.length⟩
  | [], _, _ => rfl
  | pg :: rest, k, h => by
      have hpg : pg.saveFails = false := h pg (List.mem_cons_self _ _)
      have ih := pdfPagesGo_ok dir base name fpath errMsg ext total rest (k + 1)
        (fun x hx => h x (List.mem_cons_of_mem _ hx))
      simp [pdfPagesGo, hpg, ih, Res.append, pageOuts, pageEvs]

theorem tiffFramesGo_ok (dir base fpath errMsg ext : String) :
    ∀ (frs : List Frame) (k : Nat), (∀ fr ∈ frs, fr.saveFails = false) →
      tiffFramesGo false dir base fpath errMsg ext k frs =
        ⟨pageOuts dir base ext k frs.length, [],
         (pageOuts dir base ext k frs.length).map Ev.write⟩
  | [], _, _ => rfl
  | fr :: rest, k, h => by
      have hfr : fr.saveFails = false := h fr (List.mem_cons_self _ _)
      have ih := tiffFramesGo_ok dir base fpath errMsg ext rest (k + 1)
        (fun x hx => h x (List.mem_cons_of_mem _ hx))
      simp [tiffFramesGo, hfr, ih, Res.append, pageOuts]

theorem tiffFramesGo_fail (dir base fpath errMsg ext : String) :
    ∀ (good : List Frame) (k : Nat) (bad : Frame) (rest : List Frame),
      (∀ fr ∈ good, fr.saveFails = false) → bad.saveFails = true →
      tiffFramesGo false dir base fpath errMsg ext k (good ++ bad :: rest) =
        ⟨pageOuts dir base ext k good.length, [(fpath, errMsg)],
         (pageOuts dir base ext k good.length).map Ev.write⟩
  | [], k, bad, rest, _, hbad => by simp [tiffFramesGo, hbad, pageOuts]
  | fr :: good, k, bad, rest, h, hbad => by
      have hfr : fr.saveFails = false := h fr (List.mem_cons_self _ _)
      have ih := tiffFramesGo_fail dir base fpath errMsg ext good (k + 1) bad rest
        (fun x hx => h x (List.mem_cons_of_mem _ hx)) hbad
      simp [tiffFramesGo, hfr, ih, Res.append, pageOuts]

theorem pageOuts_eq_range (dir base ext : String) :
    ∀ (n k : Nat), pageOuts dir base ext k n =
      (List.range n).map
        (fun j => joinPath dir (base ++ "_" ++ toString (k + j + 1) ++ ext))
  | 0, _ => rfl
  | n + 1, k => by
      rw [List.range_succ_eq_map]
      simp only [List.map_cons, List.map_map]
      rw [pageOuts, pageOuts_eq_range dir base ext n (k + 1)]
      refine congrArg₂ List.cons rfl ?_
      refine List.map_congr_left fun j _ => ?_
      have : k + 1 + j + 1 = k + (j + 1) + 1 := by omega
      simp [Function.comp, this]

theorem jpg_to_tiff_go_ok (env : Env) (dir : String) (total : Nat) :
    ∀ (l : List FileInfo) (i : Nat),
      (∀ fi ∈ l, ∃ fr, env.openImg fi.path = some fr ∧ fr.saveFails = false) →
      perFileLoop false (jpg_to_tiff_one env dir total) i l =
        ⟨l.map (fun fi => joinPath dir (splitextRoot fi.name ++ ".tif")), [],
         flatOkEvs dir ".tif" total i l⟩
  | [], _, _ => rfl
  | fi :: rest, i, h => by
      obtain ⟨fr, hfr, hsf⟩ := h fi (List.mem_cons_self _ _)
      have ih := jpg_to_tiff_go_ok env dir total rest (i + 1)
        (fun x hx => h x (List.mem_cons_of_mem _ hx))
      simp [perFileLoop, jpg_to_tiff_one, hfr, hsf, ih, Res.append, flatOkEvs]

theorem dedup_length_le_one {l : List Format} {a : Format}
    (h : ∀ x ∈ l, x = a) : l.dedup.length ≤ 1 := by
  induction l with
  | nil => simp
  | cons b t ih =>
      have hb : b = a := h b (List.mem_cons_self _ _)
      subst hb
      have ht : ∀ x ∈ t, x = b := fun x hx => h x (List.mem_cons_of_mem _ hx)
      by_cases hm : b ∈ t
      · rw [List.dedup_cons_of_mem hm]; exact ih ht
      · rw [List.dedup_cons_of_not_mem hm]
        cases t with
        | nil => simp
        | cons c cs =>
            exfalso
            have hcb : c = b := ht c (List.mem_cons_self _ _)
            exact hm (by rw [hcb]; exact List.mem_cons_self _ _)

theorem convert_by_source_format_cancel (env : Env) (files : List FileInfo)
    (target : Format) (dir : String) (dpi : Int) (h : target ≠ .pdf) :
    convert_by_source_format env true files target dir dpi = Res.empty := by
  cases files with
  | nil => rfl
  | cons f0 rest =>
      cases hf : formatType f0 <;> cases target <;>
        simp_all [convert_by_source_format, pdf_to_jpg, pdf_to_png, pdf_to_tiff,
          jpg_to_png, jpg_to_tiff, jpg_to_svg, png_to_jpg, png_to_tiff,
          png_to_svg, tiff_to_jpg, tiff_to_png, tiff_to_svg, svg_to_jpg,
          svg_to_png, svg_to_tiff, perFileLoop_cancel]

theorem convert_cancel_empty (env : Env) (files : List FileInfo)
    (target : Format) (dir : String) (dpi : Int) (h : target ≠ .pdf) :
    convert env true files target dir dpi = Res.empty := by
  unfold convert
  by_cases he : files.isEmpty
  · simp [he]
  · rw [if_neg (by simp [he])]
    split
    · cases hg : groupByFormat files with
      | nil => rfl
      | cons g gs =>
          obtain ⟨fmt, gfiles⟩ := g
          simp [convertLoop, convert_by_source_format_cancel env gfiles target dir dpi h]
    · exact convert_by_source_format_cancel env files target dir dpi h

theorem convert_single_format (env : Env) (cancel : Bool) (f0 : FileInfo)
    (rest : List FileInfo) (target : Format) (dir : String) (dpi : Int)
    (h : ∀ fi ∈ f0 :: rest, formatType fi = formatType f0) :
    convert env cancel (f0 :: rest) target dir dpi =
      convert_by_source_format env cancel (f0 :: rest) target dir dpi := by
  have hall : ∀ x ∈ (f0 :: rest).map formatType, x = formatType f0 := by
    intro x hx
    obtain ⟨fi, hfi, rfl⟩ := List.mem_map.mp hx
    exact h fi hfi
  have hle := dedup_length_le_one hall
  unfold convert
  rw [if_neg (by simp), if_neg (by omega)]

theorem mem_rasterDpis {x : Int} {evs : List Ev} :
    x ∈ rasterDpis evs ↔ Ev.raster x ∈ evs := by
  simp only [rasterDpis, List.mem_filterMap]
  constructor
  · rintro ⟨e, he, hx⟩
    cases e <;> simp_all
  · intro h
    exact ⟨Ev.raster x, h, rfl⟩

theorem mem_writtenPaths {p : String} {evs : List Ev} :
    p ∈ writtenPaths evs ↔ Ev.write p ∈ evs := by
  simp only [writtenPaths, List.mem_filterMap]
  constructor
  · rintro ⟨e, he, hx⟩
    cases e <;> simp_all
  · intro h
    exact ⟨Ev.write p, h, rfl⟩

theorem pdfPagesGo_no_raster (cancel : Bool)
    (dir base name fpath errMsg ext : String) (total : Nat) (x : Int) :
    ∀ (pgs : List Frame) (k : Nat),
      Ev.raster x ∉ (pdfPagesGo cancel dir base name fpath errMsg ext total k pgs).trace
  | [], _ => by simp [pdfPagesGo, Res.empty]
  | pg :: rest, k => by
      have ih := pdfPagesGo_no_raster cancel dir base name fpath errMsg ext total x rest (k + 1)
      simp only [pdfPagesGo]
      split
      · simp [Res.empty]
      · split
        · simp
        · simp [Res.append]
          exact ih

/- ### Suffix lemmas for the svg-target path rewriting -/

theorem suffix_unique_of_length {t₁ t₂ l : List Char} (h₁ : t₁ <:+ l)
    (h₂ : t₂ <:+ l) (hlen : t₁.length = t₂.length) : t₁ = t₂ := by
  obtain ⟨w₁, hw₁⟩ := h₁
  obtain ⟨w₂, hw₂⟩ := h₂
  have hw : w₁ ++ t₁ = w₂ ++ t₂ := hw₁.trans hw₂.symm
  have hl : w₁.length = w₂.length := by
    have := congrArg List.length hw
    simp only [List.length_append] at this
    omega
  exact (List.append_inj hw hl).2

theorem suffix_of_suffix_append {t u v : List Char} (h : t <:+ u ++ v)
    (hlen : t.length ≤ v.length) : t <:+ v := by
  obtain ⟨w, hw⟩ := h
  have hl : w.length + t.length = u.length + v.length := by
    have := congrArg List.length hw
    simp only [List.length_append] at this
    omega
  have hu : u.length ≤ w.length := by omega
  refine ⟨w.drop u.length, ?_⟩
  have hwu : w.take u.length = u := by
    have h1 : (w ++ t).take u.length = w.take u.length := by
      rw [List.take_append_eq_append_take, Nat.sub_eq_zero_of_le hu]
      simp
    have h2 : (u ++ v).take u.length = u := List.take_left u v
    rw [hw, h2] at h1
    exact h1.symm
  have hw2 : w = u ++ w.drop u.length := by
    conv_lhs => rw [← List.take_append_drop u.length w]
    rw [hwu]
  have : u ++ (w.drop u.length ++ t) = u ++ v := by
    rw [← List.append_assoc, ← hw2, hw]
  exact List.append_cancel_left this

theorem suffix_cons_extend {t l : List Char} (c : Char) (h : t <:+ l) :
    t <:+ c :: l := by
  obtain ⟨w, hw⟩ := h
  exact ⟨c :: w, by rw [List.cons_append, hw]⟩

theorem suffix_append_extend {t l : List Char} (u : List Char) (h : t <:+ l) :
    t <:+ u ++ l := by
  obtain ⟨w, hw⟩ := h
  exact ⟨u ++ w, by rw [List.append_assoc, hw]⟩

theorem replaceChars_nil (pat rep : List Char) (fuel : Nat) :
    replaceChars pat rep fuel [] = [] := by
  cases fuel <;> rfl

/-- Replacing every occurrence of `".svg"` by `".png"` in a string that ends
with `".svg"` yields a string that ends with `".png"`: the final occurrence
is always rewritten, because `".svg"` cannot overlap itself. -/
theorem replaceChars_svg_suffix : ∀ (fuel : Nat) (l : List Char),
    l.length ≤ fuel → ".svg".data <:+ l →
    ".png".data <:+ replaceChars ".svg".data ".png".data fuel l
  | _, [], _, hsuf => by
      have := hsuf.length_le
      simp at this
  | 0, c :: rest, hle, _ => by simp at hle
  | fuel + 1, c :: rest, hle, hsuf => by
      by_cases hpre : (".svg".data).isPrefixOf (c :: rest)
      · rw [replaceChars, if_pos ⟨by decide, hpre⟩]
        obtain ⟨m, hm⟩ := List.isPrefixOf_iff_prefix.mp hpre
        have hmdrop : (rest.drop (".svg".data.length - 1)) = m := by
          have := congrArg (List.drop ".svg".data.length) hm
          rw [List.drop_left] at this
          exact this.symm ▸ rfl
        rw [hmdrop]
        match m, hm with
        | [], hm =>
            rw [replaceChars_nil]
            exact ⟨[], by simp⟩
        | d :: m', hm =>
            by_cases hlen : 4 ≤ (d :: m').length
            · have hsm : ".svg".data <:+ d :: m' := by
                refine suffix_of_suffix_append (u := ".svg".data) ?_ (by simpa using hlen)
                rw [hm]
                exact hsuf
              have hfl : (d :: m').length ≤ fuel := by
                have := congrArg List.length hm
                simp only [List.length_append, List.length_cons] at this hle ⊢
                omega
              have ih := replaceChars_svg_suffix fuel (d :: m') hfl hsm
              exact suffix_append_extend _ ih
            · exfalso
              obtain ⟨w, hw⟩ := hsuf
              rw [← hm] at hw
              have hwl : w.length = (d :: m').length := by
                have := congrArg List.length hw
                have := congrArg List.length hm
                simp only [List.length_append, List.length_cons] at *
                omega
              have hdrop := congrArg (List.drop w.length) hw
              rw [List.drop_left] at hdrop
              rw [hwl, List.drop_append_eq_append_drop,
                Nat.sub_eq_zero_of_le
                  (show (d :: m').length ≤ ".svg".data.length by
                    have h4 : ".svg".data.length = 4 := rfl
                    simp only [List.length_cons] at hlen ⊢
                    omega),
                List.drop_zero] at hdrop
              set j := (d :: m').length with hj
              have hj1 : 1 ≤ j := by simp [hj]
              have hj3 : j ≤ 3 := by omega
              have hdl : (List.drop j ".svg".data).length = 4 - j := by
                have h4 : ".svg".data.length = 4 := rfl
                simp [h4]
              have htake := congrArg (List.take (4 - j)) hdrop
              rw [List.take_append_eq_append_take,
                List.take_of_length_le (le_of_eq hdl), hdl, Nat.sub_self,
                List.take_zero, List.append_nil] at htake
              interval_cases j <;> exact absurd htake (by decide)
      · rw [replaceChars, if_neg (fun hcon => hpre hcon.2)]
        have hlen4 : 4 ≤ (c :: rest).length := by simpa using hsuf.length_le
        by_cases hr : 4 ≤ rest.length
        · have hsr : ".svg".data <:+ rest :=
            suffix_of_suffix_append (u := [c]) (by simpa using hsuf) (by simpa using hr)
          have ih := replaceChars_svg_suffix fuel rest
            (by simp only [List.length_cons] at hle; omega) hsr
          exact suffix_cons_extend c ih
        · exfalso
          have hr3 : rest.length = 3 := by
            simp only [List.length_cons] at hlen4
            omega
          have heq : ".svg".data = c :: rest := by
            refine suffix_unique_of_length hsuf (List.suffix_refl _) ?_
            simp [hr3]
          exact hpre (heq ▸ List.isPrefixOf_iff_prefix.mpr (List.prefix_refl _))

theorem joinPath_data_suffix (dir fname : String) :
    fname.data <:+ (joinPath dir fname).data := by
  unfold joinPath
  split
  · exact List.suffix_refl _
  · split
    · rw [String.data_append]
      exact ⟨dir.data, rfl⟩
    · rw [String.data_append, String.data_append]
      exact ⟨dir.data ++ "/".data, by rw [List.append_assoc]⟩

theorem svgOutput_suffix (dir base : String) :
    ".svg".data <:+ (joinPath dir (base ++ ".svg")).data := by
  refine List.IsSuffix.trans ?_ (joinPath_data_suffix dir (base ++ ".svg"))
  rw [String.data_append]
  exact ⟨base.data, rfl⟩

theorem pngPath_suffix (dir base : String) :
    ".png".data <:+ (pyReplace (joinPath dir (base ++ ".svg")) ".svg" ".png").data :=
  replaceChars_svg_suffix _ _ (le_refl _) (svgOutput_suffix dir base)

theorem png_suffix_not_svg {p : List Char} (h : ".png".data <:+ p) :
    ¬ ".svg".data <:+ p := by
  intro h2
  exact absurd (suffix_unique_of_length h h2 (by decide)) (by decide)

/- ### Directory-state lemmas -/

theorem presentFold_append (acc : List String) :
    ∀ (xs ys : List Ev),
      presentFold acc (xs ++ ys) = presentFold (presentFold acc xs) ys := by
  intro xs
  induction xs generalizing acc with
  | nil => intro ys; rfl
  | cons e rest ih =>
      intro ys
      simp only [List.cons_append, presentFold]
      exact ih _ ys

theorem presentFold_removes_not_mem_of_not_mem {p : String} :
    ∀ (qs : List String) (acc : List String), p ∉ acc →
      p ∉ presentFold acc (qs.map Ev.remove)
  | [], _, h => h
  | q :: qs, acc, h => by
      simp only [List.map_cons, presentFold]
      exact presentFold_removes_not_mem_of_not_mem qs _
        (fun hm => h (List.mem_of_mem_filter hm))

theorem presentFold_removes_not_mem {p : String} :
    ∀ (qs : List String) (acc : List String), p ∈ qs →
      p ∉ presentFold acc (qs.map Ev.remove)
  | [], _, h => by simp at h
  | q :: qs, acc, h => by
      simp only [List.map_cons, presentFold]
      rcases List.mem_cons.mp h with rfl | hmem
      · exact presentFold_removes_not_mem_of_not_mem qs _ (by simp)
      · exact presentFold_removes_not_mem qs _ hmem

theorem presentFold_mem_of_write {p : String} :
    ∀ (evs : List Ev) (acc : List String), (∀ q, Ev.remove q ∉ evs) →
      (Ev.write p ∈ evs ∨ p ∈ acc) → p ∈ presentFold acc evs
  | [], acc, _, h => by
      rcases h with h | h
      · simp at h
      · exact h
  | e :: evs, acc, hnr, h => by
      have hnr' : ∀ q, Ev.remove q ∉ evs :=
        fun q hq => hnr q (List.mem_cons_of_mem _ hq)
      cases e with
      | write q =>
          simp only [presentFold]
          refine presentFold_mem_of_write evs _ hnr' ?_
          rcases h with h | h
          · rcases List.mem_cons.mp h with h | h
            · right
              have hq : q = p := by injection h.symm
              subst hq
              split
              · assumption
              · simp
            · left; exact h
          · right
            split
            · exact h
            · exact List.mem_append_left _ h
      | remove q => exact absurd (List.mem_cons_self _ _) (hnr q)
      | prog m x =>
          simp only [presentFold]
          refine presentFold_mem_of_write evs _ hnr' ?_
          rcases h with h | h
          · rcases List.mem_cons.mp h with h | h
            · exact absurd h (by simp)
            · left; exact h
          · right; exact h
      | raster d =>
          simp only [presentFold]
          refine presentFold_mem_of_write evs _ hnr' ?_
          rcases h with h | h
          · rcases List.mem_cons.mp h with h | h
            · exact absurd h (by simp)
            · left; exact h
          · right; exact h

/- ### Shape lemmas for the tiff-to-pdf collection loop -/

theorem tempPaths_length (dir : String) :
    ∀ (n k : Nat), (tempPaths dir k n).length = n
  | 0, _ => rfl
  | n + 1, k => by simp [tempPaths, tempPaths_length dir n (k + 1)]

theorem tempPaths_concat (dir : String) :
    ∀ (m n k : Nat),
      tempPaths dir k m ++ tempPaths dir (k + m) n = tempPaths dir k (m + n)
  | 0, n, k => by simp [tempPaths, Nat.zero_add]
  | m + 1, n, k => by
      have ih := tempPaths_concat dir m n (k + 1)
      have harith : k + (m + 1) = k + 1 + m := by omega
      have harith2 : m + 1 + n = m + n + 1 := by omega
      simp only [tempPaths, List.cons_append, harith, harith2]
      rw [ih]

theorem tiffPdfFramesGo_paths (dir fpath errMsg : String) :
    ∀ (frs : List Frame) (k : Nat), ∃ n,
      (tiffPdfFramesGo dir fpath errMsg k frs).1 = tempPaths dir k n
  | [], _ => ⟨0, rfl⟩
  | fr :: rest, k => by
      by_cases hsf : fr.saveFails = true
      · exact ⟨0, by simp [tiffPdfFramesGo, hsf, tempPaths]⟩
      · obtain ⟨n, hn⟩ := tiffPdfFramesGo_paths dir fpath errMsg rest (k + 1)
        refine ⟨n + 1, ?_⟩
        simp only [tiffPdfFramesGo, if_neg hsf, hn]
        rfl

theorem tiffPdfCollect_paths (env : Env) (dir : String) :
    ∀ (l : List FileInfo) (k : Nat), ∃ n,
      (tiffPdfCollect env dir k l).1 = tempPaths dir k n
  | [], _ => ⟨0, rfl⟩
  | fi :: rest, k => by
      simp only [tiffPdfCollect]
      match hop : env.openTiff fi.path with
      | none =>
          obtain ⟨n, hn⟩ := tiffPdfCollect_paths env dir rest k
          exact ⟨n, hn⟩
      | some img =>
          by_cases hfr : 1 < img.nFrames
          · simp only [if_pos hfr]
            obtain ⟨m, hm⟩ := tiffPdfFramesGo_paths dir fi.path env.errMsg img.frames k
            obtain ⟨n, hn⟩ :=
              tiffPdfCollect_paths env dir rest
                (k + (tiffPdfFramesGo dir fi.path env.errMsg k img.frames).1.length)
            refine ⟨m + n, ?_⟩
            rw [hm] at hn ⊢
            rw [tempPaths_length] at hn ⊢
            rw [hn, tempPaths_concat]
          · simp only [if_neg hfr]
            by_cases hsf : img.firstFrame.saveFails = true
            · simp only [if_pos hsf]
              obtain ⟨n, hn⟩ := tiffPdfCollect_paths env dir rest k
              exact ⟨n, hn⟩
            · simp only [if_neg hsf]
              obtain ⟨n, hn⟩ := tiffPdfCollect_paths env dir rest (k + 1)
              refine ⟨n + 1, ?_⟩
              rw [hn]
              rfl

theorem tiffPdfFramesGo_trace (dir fpath errMsg : String) :
    ∀ (frs : List Frame) (k : Nat),
      (tiffPdfFramesGo dir fpath errMsg k frs).2.2 =
        (tiffPdfFramesGo dir fpath errMsg k frs).1.map Ev.write
  | [], _ => rfl
  | fr :: rest, k => by
      by_cases hsf : fr.saveFails = true
      · simp [tiffPdfFramesGo, hsf]
      · simp only [tiffPdfFramesGo, if_neg hsf, List.map_cons]
        rw [tiffPdfFramesGo_trace dir fpath errMsg rest (k + 1)]

theorem tiffPdfCollect_trace (env : Env) (dir : String) :
    ∀ (l : List FileInfo) (k : Nat),
      (tiffPdfCollect env dir k l).2.2 =
        (tiffPdfCollect env dir k l).1.map Ev.write
  | [], _ => rfl
  | fi :: rest, k => by
      simp only [tiffPdfCollect]
      match hop : env.openTiff fi.path with
      | none => exact tiffPdfCollect_trace env dir rest k
      | some img =>
          by_cases hfr : 1 < img.nFrames
          · simp only [if_pos hfr, List.map_append]
            rw [tiffPdfFramesGo_trace, tiffPdfCollect_trace env dir rest _]
          · simp only [if_neg hfr]
            by_cases hsf : img.firstFrame.saveFails = true
            · simp only [if_pos hsf]
              exact tiffPdfCollect_trace env dir rest k
            · simp only [if_neg hsf, List.map_cons]
              rw [tiffPdfCollect_trace env dir rest (k + 1)]

/- ### Claim theorems -/

/-- C1 counterexample: a batch of one two-frame TIFF whose second frame
fails to save, converted to jpg with no cancellation, ends with the first
page's output left in successPaths AND one failure entry for the same
source file — an input file contributes to both lists, contradicting the
claimed exactly-one-way accounting. -/
theorem C1_counterexample :
    (convert envA false [aTif] .jpg "/out" 300).success = ["/out/a_1.jpg"] ∧
    (convert envA false [aTif] .jpg "/out" 300).failed =
      [("/in/a.tif", "boom")] := by
  constructor <;> decide

/-- C1 amended: for a multi-frame TIFF whose page expansion fails midway
(good frames, then one failing frame), `_tiff_to_jpg` records exactly one
failure entry for the file, while the pages already written before the
failure remain in successPaths — so a file can contribute to both lists;
only the at-most-one-failure-entry half of the claim holds. -/
theorem C1_amended (env : Env) (dir : String) (fi : FileInfo) (img : TiffImg)
    (good : List Frame) (bad : Frame) (rest : List Frame)
    (hop : env.openTiff fi.path = some img)
    (hfr : img.frames = good ++ bad :: rest)
    (hmulti : 1 < img.nFrames)
    (hgood : ∀ fr ∈ good, fr.saveFails = false)
    (hbad : bad.saveFails = true) :
    (tiff_to_jpg env false [fi] dir).success =
      pageOuts dir (splitextRoot fi.name) ".jpg" 0 good.length ∧
    (tiff_to_jpg env false [fi] dir).failed = [(fi.path, env.errMsg)] := by
  have hframes := tiffFramesGo_fail dir (splitextRoot fi.name) fi.path
    env.errMsg ".jpg" good 0 bad rest hgood hbad
  constructor <;>
    simp [tiff_to_jpg, perFileLoop, tiff_to_jpg_one, hop, hmulti, hfr,
      hframes, Res.append, Res.empty]

theorem C1_amended_witness :
    (tiff_to_jpg envA false [aTif] "/out").success =
      pageOuts "/out" (splitextRoot "a.tif") ".jpg" 0 1 ∧
    (tiff_to_jpg envA false [aTif] "/out").failed = [("/in/a.tif", "boom")] :=
  C1_amended envA "/out" aTif ⟨⟨.rgb, false⟩, [⟨.rgb, true⟩]⟩ [⟨.rgb, false⟩]
    ⟨.rgb, true⟩ [] (by decide) (by decide) (by decide)
    (by intro fr hfr; simp at hfr; rw [hfr]) (by decide)

/-- C2 counterexample: for the unsupported pair (png, png) the engine's
convert returns the empty outcome — the group's single file is omitted
from both successPaths and failures, with no "conversion not supported"
failure entry, contrary to the claim. -/
theorem C2_counterexample :
    resolve (formatType picPng) .png = false ∧
    convert envA false [picPng] .png "/out" 300 = Res.empty := by
  constructor <;> decide

/-- C2 amended: a group whose (sourceFormat, targetFormat) pair has no
handler is silently dropped: `_convert_by_source_format` falls through to
the empty outcome, so the group's files appear in neither successPaths nor
failures and no "conversion not supported" reason is ever produced. -/
theorem C2_amended (env : Env) (cancel : Bool) (f0 : FileInfo)
    (rest : List FileInfo) (target : Format) (dir : String) (dpi : Int)
    (h : resolve (formatType f0) target = false) :
    convert_by_source_format env cancel (f0 :: rest) target dir dpi =
      Res.empty := by
  cases hf : formatType f0 <;> cases target <;>
    simp_all [resolve, convert_by_source_format]

theorem C2_amended_witness :
    convert_by_source_format envA false [picPng] .png "/out" 300 = Res.empty :=
  C2_amended envA false picPng [] .png "/out" 300 (by decide)

/-- C3: the engine's capability lookup (the branch structure of
`_convert_by_source_format`) has a handler exactly for the 19 ordered pairs
declared in `CONVERSION_COMBINATIONS`, every declared pair has distinct
source and target, and the diagonal (f, f) always resolves to no handler. -/
theorem C3_resolve_total :
    (∀ s t, supportedPair s t = true → s ≠ t ∧ resolve s t = true) ∧
    (∀ f, resolve f f = false) ∧
    (∀ s t, resolve s t = true → supportedPair s t = true) := by
  decide

theorem C3_resolve_total_witness :
    resolve .pdf .jpg = true ∧ resolve .png .png = false :=
  ⟨(C3_resolve_total.1 .pdf .jpg (by decide)).2, C3_resolve_total.2.1 .png⟩

/-- C4 counterexample: with the cancellation signal set before any unit of
work starts, a two-JPG batch with target pdf still produces a merged
output: `_jpg_to_pdf` never polls the signal, so successPaths is nonempty
and an output file is written — contradicting the claim that nothing is
written and both result lists are empty. -/
theorem C4_counterexample :
    (convert envA true [xJpg, yJpg] .pdf "/out" 300).success =
      ["/out/output_20240101_000000.pdf"] ∧
    writtenPaths (convert envA true [xJpg, yJpg] .pdf "/out" 300).trace =
      ["/out/output_20240101_000000.pdf"] := by
  constructor <;> decide

/-- C4 amended: a pre-set cancellation signal yields the empty outcome (no
writes, no failures) for every non-pdf target, because all per-file
handlers poll the signal at the top of their loops; but the jpg→pdf merge
handler contains no cancellation check at all, so an all-JPG batch with
target pdf is still merged and its single output still appears in
successPaths. -/
theorem C4_amended :
    (∀ (env : Env) (files : List FileInfo) (target : Format) (dir : String)
        (dpi : Int), target ≠ .pdf →
        convert env true files target dir dpi = Res.empty) ∧
    (∀ (env : Env) (f0 : FileInfo) (rest : List FileInfo) (dir : String)
        (dpi : Int),
        (∀ fi ∈ f0 :: rest, formatType fi = .jpg) →
        env.mergeOk (mergeImagePaths (f0 :: rest)) = true →
        (convert env true (f0 :: rest) .pdf dir dpi).success =
          [joinPath dir ("output_" ++ env.timestamp ++ ".pdf")]) := by
  constructor
  · exact fun env files target dir dpi h =>
      convert_cancel_empty env files target dir dpi h
  · intro env f0 rest dir dpi hfmt hmerge
    have h0 : formatType f0 = .jpg := hfmt f0 (List.mem_cons_self _ _)
    rw [convert_single_format env true f0 rest .pdf dir dpi
      (fun fi hfi => by rw [hfmt fi hfi, h0])]
    simp [convert_by_source_format, h0, jpg_to_pdf, hmerge]

theorem C4_amended_witness :
    convert envA true [picPng] .jpg "/out" 300 = Res.empty ∧
    (convert envA true [xJpg] .pdf "/out" 300).success =
      ["/out/output_20240101_000000.pdf"] :=
  ⟨C4_amended.1 envA [picPng] .jpg "/out" 300 (by decide),
   (C4_amended.2 envA xJpg [] "/out" 300
      (by intro fi hfi; simp at hfi; rw [hfi]; decide)
      (by decide)).trans (by decide)⟩

/-- C5 counterexample: in a TIFF→PDF merge where the single temp page is
written but the `img2pdf` merge then raises, the handler returns with the
temp file `_temp_page_0.jpg` still present in the output directory — the
claimed unconditional cleanup does not happen on the failure path. -/
theorem C5_counterexample :
    tempPagePath "/out" 0 ∈ presentAfter (tiff_to_pdf envB [aTif] "/out").trace ∧
    (tiff_to_pdf envB [aTif] "/out").failed = [("", "boom")] := by
  constructor <;> decide

/-- C5 amended: the temp pages of a TIFF→PDF merge are the consecutively
numbered `_temp_page_{k}.jpg` files (one running counter across all source
files, never reset); when the merge succeeds they are all removed by the
time the handler returns (deletions modelled as succeeding), but when the
merge fails every collected temp page is left behind in the output
directory. -/
theorem C5_amended (env : Env) (files : List FileInfo) (dir : String) :
    (∃ n, (tiffPdfCollect env dir 0 (sortByName files)).1 = tempPaths dir 0 n) ∧
    (env.mergeOk (tiffPdfCollect env dir 0 (sortByName files)).1 = true →
      ∀ p ∈ (tiffPdfCollect env dir 0 (sortByName files)).1,
        p ∉ presentAfter (tiff_to_pdf env files dir).trace) ∧
    (env.mergeOk (tiffPdfCollect env dir 0 (sortByName files)).1 = false →
      ∀ p ∈ (tiffPdfCollect env dir 0 (sortByName files)).1,
        p ∈ presentAfter (tiff_to_pdf env files dir).trace) := by
  refine ⟨tiffPdfCollect_paths env dir _ 0, ?_, ?_⟩
  · intro hm p hp
    have hne : (tiffPdfCollect env dir 0 (sortByName files)).1.isEmpty = false := by
      cases hcc : (tiffPdfCollect env dir 0 (sortByName files)).1 with
      | nil => rw [hcc] at hp; simp at hp
      | cons a l => simp
    have hshape : (tiff_to_pdf env files dir).trace =
        (Ev.prog "正在合并TIFF文件..." 0 ::
          ((tiffPdfCollect env dir 0 (sortByName files)).2.2 ++
            [Ev.write (joinPath dir ("output_" ++ env.timestamp ++ ".pdf"))])) ++
          ((tiffPdfCollect env dir 0 (sortByName files)).1.map Ev.remove ++
            [Ev.prog "转换完成" 100]) := by
      simp [tiff_to_pdf, hne, hm, List.append_assoc]
    rw [hshape, presentAfter, presentFold_append, presentFold_append]
    show p ∉ presentFold _ [Ev.prog "转换完成" 100]
    have hstep : ∀ acc : List String,
        presentFold acc [Ev.prog "转换完成" 100] = acc := fun _ => rfl
    rw [hstep]
    exact presentFold_removes_not_mem _ _ hp
  · intro hm p hp
    have hne : (tiffPdfCollect env dir 0 (sortByName files)).1.isEmpty = false := by
      cases hcc : (tiffPdfCollect env dir 0 (sortByName files)).1 with
      | nil => rw [hcc] at hp; simp at hp
      | cons a l => simp
    have hshape : (tiff_to_pdf env files dir).trace =
        Ev.prog "正在合并TIFF文件..." 0 ::
          (tiffPdfCollect env dir 0 (sortByName files)).2.2 := by
      simp [tiff_to_pdf, hne, hm]
    rw [hshape, presentAfter]
    refine presentFold_mem_of_write _ _ ?_ ?_
    · intro q hq
      rcases List.mem_cons.mp hq with h | h
      · simp at h
      · rw [tiffPdfCollect_trace] at h
        obtain ⟨p', _, hp'⟩ := List.mem_map.mp h
        simp at hp'
    · left
      refine List.mem_cons_of_mem _ ?_
      rw [tiffPdfCollect_trace]
      exact List.mem_map_of_mem Ev.write hp

theorem C5_amended_witness :
    tempPagePath "/out" 0 ∉ presentAfter (tiff_to_pdf envC [aTif] "/out").trace :=
  (C5_amended envC [aTif] "/out").2.1 (by decide) (tempPagePath "/out" 0)
    (by decide)

/-- C6 counterexample: converting a three-page PDF reports percents
0, 33, 66, 100 — after the second of three pages the callback receives 66,
not round((2/3)·100) = 67, because the code truncates with `int(...)`; and
the flat jpg→tiff handler over two files reports [0, 50] — `int(i/total·100)`
BEFORE each unit — not the claimed [round(1/2·100), round(2/2·100)] =
[50, 100] after each unit. -/
theorem C6_counterexample :
    progPcts (convert envA false [docPdf] .jpg "/out" 300).trace =
      [0, 33, 66, 100] ∧
    roundPct 2 3 = 67 ∧
    progPcts (jpg_to_tiff envA false [xJpg, yJpg] "/out").trace = [0, 50] ∧
    (roundPct 1 2 = 50 ∧ roundPct 2 2 = 100) := by
  refine ⟨by decide, by decide, by decide, by decide, by decide⟩

/-- C6 amended: multi-page handlers report `int((k/total)·100)` (floor, not
round) after the k-th page is written, after an initial 0% report; flat
per-file handlers report `int((i/total)·100)` immediately BEFORE converting
the file at 0-based index i (so the last report of a flat batch is
(total−1)/total, never 100).  The full traces make the write/report order
explicit: `pageEvs` interleaves each write before its report, `flatOkEvs`
each report before its write. -/
theorem C6_amended :
    (∀ (env : Env) (dir : String) (dpi : Int) (fi : FileInfo)
        (pages : List Frame),
      env.pdfPages fi.path = some pages →
      (∀ pg ∈ pages, pg.saveFails = false) →
      (pdf_to_jpg env false [fi] dir dpi).trace =
        [Ev.prog (convMsg fi.name) 0, Ev.raster dpi] ++
          pageEvs dir (splitextRoot fi.name) fi.name ".jpg" pages.length 0
            pages.length) ∧
    (∀ (env : Env) (dir : String) (files : List FileInfo),
      (∀ fi ∈ files, ∃ fr, env.openImg fi.path = some fr ∧
          fr.saveFails = false) →
      (jpg_to_tiff env false files dir).trace =
        flatOkEvs dir ".tif" files.length 0 files) := by
  constructor
  · intro env dir dpi fi pages hop hok
    simp [pdf_to_jpg, perFileLoop, pdf_to_jpg_one, hop,
      pdfPagesGo_ok dir (splitextRoot fi.name) fi.name fi.path env.errMsg
        ".jpg" pages.length pages 0 hok,
      Res.append, Res.empty]
  · intro env dir files hok
    simp [jpg_to_tiff, jpg_to_tiff_go_ok env dir files.length files 0 hok]

theorem C6_amended_witness :
    (pdf_to_jpg envA false [docPdf] "/out" 300).trace =
      [Ev.prog (convMsg "doc.pdf") 0, Ev.raster 300] ++
        pageEvs "/out" (splitextRoot "doc.pdf") "doc.pdf" ".jpg" 3 0 3 :=
  C6_amended.1 envA "/out" 300 docPdf [⟨.rgb, false⟩, ⟨.rgb, false⟩, ⟨.rgb, false⟩]
    (by decide) (by intro pg hpg; simp at hpg; rw [hpg])

/-- C7: multi-page sources expand to one output per page named
`{baseName}_{pageIndex+1}.{ext}` with 1-based ascending numbering (PDF
pages and multi-frame TIFF frames alike), single-page/flat sources produce
exactly one `{baseName}.{ext}` output, and the concrete scenario — one
three-page PDF plus one PNG, target jpg — yields exactly the four success
paths doc_1.jpg, doc_2.jpg, doc_3.jpg, pic.jpg with no failures. -/
theorem C7_naming :
    (∀ (env : Env) (dir : String) (dpi : Int) (fi : FileInfo)
        (pages : List Frame),
      env.pdfPages fi.path = some pages →
      (∀ pg ∈ pages, pg.saveFails = false) →
      (pdf_to_jpg env false [fi] dir dpi).success =
        (List.range pages.length).map
          (fun i => joinPath dir
            (splitextRoot fi.name ++ "_" ++ toString (i + 1) ++ ".jpg")) ∧
      (pdf_to_jpg env false [fi] dir dpi).failed = []) ∧
    (∀ (env : Env) (dir : String) (fi : FileInfo) (img : TiffImg),
      env.openTiff fi.path = some img → 1 < img.nFrames →
      (∀ fr ∈ img.frames, fr.saveFails = false) →
      (tiff_to_jpg env false [fi] dir).success =
        (List.range img.nFrames).map
          (fun i => joinPath dir
            (splitextRoot fi.name ++ "_" ++ toString (i + 1) ++ ".jpg"))) ∧
    (∀ (env : Env) (dir : String) (fi : FileInfo) (fr : Frame),
      env.openImg fi.path = some fr → fr.saveFails = false →
      (png_to_jpg env false [fi] dir).success =
        [joinPath dir (splitextRoot fi.name ++ ".jpg")]) ∧
    (∀ (env : Env) (dir : String) (fi : FileInfo) (img : TiffImg),
      env.openTiff fi.path = some img → img.nFrames = 1 →
      img.firstFrame.saveFails = false →
      (tiff_to_jpg env false [fi] dir).success =
        [joinPath dir (splitextRoot fi.name ++ ".jpg")]) ∧
    ((convert envA false [docPdf, picPng] .jpg "/out" 300).success =
      ["/out/doc_1.jpg", "/out/doc_2.jpg", "/out/doc_3.jpg", "/out/pic.jpg"] ∧
     (convert envA false [docPdf, picPng] .jpg "/out" 300).failed = []) := by
  refine ⟨?_, ?_, ?_, ?_, by constructor <;> decide⟩
  · intro env dir dpi fi pages hop hok
    constructor <;>
      simp [pdf_to_jpg, perFileLoop, pdf_to_jpg_one, hop,
        pdfPagesGo_ok dir (splitextRoot fi.name) fi.name fi.path env.errMsg
          ".jpg" pages.length pages 0 hok,
        Res.append, Res.empty, pageOuts_eq_range]
  · intro env dir fi img hop hmulti hok
    have hframes := tiffFramesGo_ok dir (splitextRoot fi.name) fi.path
      env.errMsg ".jpg" img.frames 0 hok
    have hlen : img.frames.length = img.nFrames := by
      simp [TiffImg.frames, TiffImg.nFrames]
      omega
    simp [tiff_to_jpg, perFileLoop, tiff_to_jpg_one, hop, hmulti, hframes,
      hlen, Res.append, Res.empty, pageOuts_eq_range]
  · intro env dir fi fr hop hsf
    simp [png_to_jpg, perFileLoop, png_to_jpg_one, hop, hsf, Res.append,
      Res.empty]
  · intro env dir fi img hop hone hsf
    simp [tiff_to_jpg, perFileLoop, tiff_to_jpg_one, hop, hone, hsf,
      Res.append, Res.empty]

theorem C7_naming_witness :
    (png_to_jpg envA false [picPng] "/out").success =
      [joinPath "/out" (splitextRoot "pic.png" ++ ".jpg")] :=
  C7_naming.2.2.1 envA "/out" picPng ⟨.rgb, false⟩ (by decide) (by decide)

/-- C8 counterexample: the merge handler sorts by file NAME only, with a
stable sort, so two distinct files that share a name keep their input
order: permuting the group [/x/a.jpg, /y/a.jpg] (both named a.jpg) changes
the ordered page list handed to `img2pdf.convert`, so the merged output is
not the same for every permutation of the input group. -/
theorem C8_counterexample :
    List.Perm [dupJpgB, dupJpgA] [dupJpgA, dupJpgB] ∧
    mergeImagePaths [dupJpgA, dupJpgB] ≠ mergeImagePaths [dupJpgB, dupJpgA] := by
  constructor <;> decide

/-- C8 amended: the jpg→pdf merge handler consumes the whole group as one
unit (the page list handed to the merge is a permutation of the group's
paths), sorts by file name before merging, and on success emits exactly one
success path `output_{timestamp}.pdf` with no failures; the output is the
same for any permutation of the input group PROVIDED the file names are
pairwise distinct (with duplicate names the stable sort preserves input
order among them, so permutations can change the page order). -/
theorem C8_amended :
    (∀ (env : Env) (dir : String) (files files' : List FileInfo),
      files.Perm files' → (files.map FileInfo.name).Nodup →
      jpg_to_pdf env files dir = jpg_to_pdf env files' dir) ∧
    (∀ (env : Env) (dir : String) (files : List FileInfo),
      env.mergeOk (mergeImagePaths files) = true →
      (jpg_to_pdf env files dir).success =
        [joinPath dir ("output_" ++ env.timestamp ++ ".pdf")] ∧
      (jpg_to_pdf env files dir).failed = []) ∧
    (∀ files : List FileInfo,
      (mergeImagePaths files).Perm (files.map FileInfo.path)) := by
  refine ⟨?_, ?_, ?_⟩
  · intro env dir files files' hp hnd
    have hs : sortByName files = sortByName files' := sortByName_eq_of_perm hp hnd
    simp only [jpg_to_pdf, mergeImagePaths, hs]
  · intro env dir files hm
    simp [jpg_to_pdf, hm]
  · intro files
    exact (sortByName_perm files).map FileInfo.path

theorem C8_amended_witness :
    (jpg_to_pdf envA [xJpg, yJpg] "/out").success =
      [joinPath "/out" ("output_" ++ envA.timestamp ++ ".pdf")] ∧
    (jpg_to_pdf envA [xJpg, yJpg] "/out").failed = [] :=
  C8_amended.2.1 envA "/out" [xJpg, yJpg] (by decide)

/-- C9 counterexample: the engine's convert performs no dpi clamping — a
pdf→jpg request with dpi = 1000 hands exactly 1000 to the rasterization
step, which is outside [MIN_DPI, MAX_DPI] = [300, 600]. -/
theorem C9_counterexample :
    rasterDpis (convert envA false [docPdf] .jpg "/out" 1000).trace = [1000] ∧
    ¬ (MIN_DPI ≤ (1000 : Int) ∧ (1000 : Int) ≤ MAX_DPI) := by
  constructor <;> decide

/-- C9 amended: `FileProcessor.validate_dpi` clamps any integer to the
nearest bound of [300, 600] (and the GUI applies it before converting);
but the engine itself does not clamp: every dpi value handed to the
rasterizer by the pdf→jpg handler is exactly the caller-supplied dpi, and
convert dispatches that dpi unchanged — so a caller that skips validate_dpi
(like the HTTP layer) gets out-of-range dpi used as-is. -/
theorem C9_amended :
    (∀ d : Int, MIN_DPI ≤ (validate_dpi d).1 ∧ (validate_dpi d).1 ≤ MAX_DPI ∧
      (validate_dpi d).1 = max MIN_DPI (min MAX_DPI d)) ∧
    (∀ (env : Env) (cancel : Bool) (files : List FileInfo) (dir : String)
        (d x : Int),
      x ∈ rasterDpis (pdf_to_jpg env cancel files dir d).trace → x = d) ∧
    (∀ (env : Env) (cancel : Bool) (f0 : FileInfo) (rest : List FileInfo)
        (dir : String) (d : Int),
      (∀ fi ∈ f0 :: rest, formatType fi = .pdf) →
      convert env cancel (f0 :: rest) .jpg dir d =
        pdf_to_jpg env cancel (f0 :: rest) dir d) := by
  refine ⟨?_, ?_, ?_⟩
  · intro d
    unfold validate_dpi MIN_DPI MAX_DPI
    split_ifs with h1 h2 <;> refine ⟨by omega, by omega, by omega⟩
  · intro env cancel files dir d x hx
    rw [mem_rasterDpis] at hx
    obtain ⟨j, fi, _, he⟩ := perFileLoop_mem_trace cancel _ files 0 _ hx
    revert he
    unfold pdf_to_jpg_one
    match hop : env.pdfPages fi.path with
    | none =>
        intro he
        simp at he
        exact he
    | some pages =>
        intro he
        simp only [List.append_eq, List.mem_append, List.mem_cons,
          List.mem_singleton] at he
        rcases he with (he | he | he) | he
        · exact absurd he (by simp)
        · injection he
        · simp at he
        · exact absurd he
            (pdfPagesGo_no_raster cancel dir (splitextRoot fi.name) fi.name
              fi.path env.errMsg ".jpg" pages.length x pages 0)
  · intro env cancel f0 rest dir d hfmt
    have h0 : formatType f0 = .pdf := hfmt f0 (List.mem_cons_self _ _)
    rw [convert_single_format env cancel f0 rest .jpg dir d
      (fun fi hfi => by rw [hfmt fi hfi, h0])]
    simp [convert_by_source_format, h0]

theorem C9_amended_witness :
    ((validate_dpi 1000).1 = max MIN_DPI (min MAX_DPI 1000)) ∧
    ((300 : Int) = 300) :=
  ⟨(C9_amended.1 1000).2.2,
   C9_amended.2.1 envA false [docPdf] "/out" 300 300 (by decide)⟩

/-- Any success or written path of the jpg→svg placeholder comes from the
`.svg → .png` path rewriting. -/
theorem jpg_to_svg_one_paths (env : Env) (dir : String) (total i : Nat)
    (fi : FileInfo) (p : String)
    (h : p ∈ (jpg_to_svg_one env dir total i fi).success ∨
      Ev.write p ∈ (jpg_to_svg_one env dir total i fi).trace) :
    p = pyReplace (joinPath dir (splitextRoot fi.name ++ ".svg")) ".svg" ".png" := by
  revert h
  unfold jpg_to_svg_one
  match env.openImg fi.path with
  | none => intro h; rcases h with h | h <;> simp_all
  | some fr =>
      intro h
      by_cases hsf : fr.saveFails = true <;> rcases h with h | h <;> simp_all

/-- Any success or written path of the png→svg placeholder comes from the
`.svg → .png` path rewriting. -/
theorem png_to_svg_one_paths (env : Env) (dir : String) (total i : Nat)
    (fi : FileInfo) (p : String)
    (h : p ∈ (png_to_svg_one env dir total i fi).success ∨
      Ev.write p ∈ (png_to_svg_one env dir total i fi).trace) :
    p = pyReplace (joinPath dir (splitextRoot fi.name ++ ".svg")) ".svg" ".png" := by
  revert h
  unfold png_to_svg_one
  match env.openImg fi.path with
  | none => intro h; rcases h with h | h <;> simp_all
  | some fr =>
      intro h
      by_cases hsf : fr.saveFails = true <;> rcases h with h | h <;> simp_all

/-- Any success or written path of the tiff→svg placeholder comes from the
`.svg → .png` path rewriting. -/
theorem tiff_to_svg_one_paths (env : Env) (dir : String) (total i : Nat)
    (fi : FileInfo) (p : String)
    (h : p ∈ (tiff_to_svg_one env dir total i fi).success ∨
      Ev.write p ∈ (tiff_to_svg_one env dir total i fi).trace) :
    p = pyReplace (joinPath dir (splitextRoot fi.name ++ ".svg")) ".svg" ".png" := by
  revert h
  unfold tiff_to_svg_one
  match env.openTiff fi.path with
  | none => intro h; rcases h with h | h <;> simp_all
  | some img =>
      intro h
      by_cases hsf : img.firstFrame.saveFails = true <;>
        rcases h with h | h <;> simp_all

/-- C10: for every file a raster-to-SVG handler (jpg→svg, png→svg,
tiff→svg) records as a success, and for every file such a handler writes,
the path ends in `.png` — and no written or recorded path ever ends in
`.svg`: the svg target silently yields PNG outputs. -/
theorem C10_svg_targets_write_png (env : Env) (cancel : Bool)
    (files : List FileInfo) (dir : String) (p : String)
    (h : (p ∈ (jpg_to_svg env cancel files dir).success ∨
          Ev.write p ∈ (jpg_to_svg env cancel files dir).trace) ∨
         (p ∈ (png_to_svg env cancel files dir).success ∨
          Ev.write p ∈ (png_to_svg env cancel files dir).trace) ∨
         (p ∈ (tiff_to_svg env cancel files dir).success ∨
          Ev.write p ∈ (tiff_to_svg env cancel files dir).trace)) :
    ".png".data <:+ p.data ∧ ¬ ".svg".data <:+ p.data := by
  have hform : ∃ fi : FileInfo,
      p = pyReplace (joinPath dir (splitextRoot fi.name ++ ".svg")) ".svg" ".png" := by
    rcases h with (h | h) | (h | h) | (h | h)
    · obtain ⟨j, fi, _, hp⟩ := perFileLoop_mem_success cancel _ files 0 p h
      exact ⟨fi, jpg_to_svg_one_paths env dir files.length j fi p (Or.inl hp)⟩
    · obtain ⟨j, fi, _, hp⟩ := perFileLoop_mem_trace cancel _ files 0 _ h
      exact ⟨fi, jpg_to_svg_one_paths env dir files.length j fi p (Or.inr hp)⟩
    · obtain ⟨j, fi, _, hp⟩ := perFileLoop_mem_success cancel _ files 0 p h
      exact ⟨fi, png_to_svg_one_paths env dir files.length j fi p (Or.inl hp)⟩
    · obtain ⟨j, fi, _, hp⟩ := perFileLoop_mem_trace cancel _ files 0 _ h
      exact ⟨fi, png_to_svg_one_paths env dir files.length j fi p (Or.inr hp)⟩
    · obtain ⟨j, fi, _, hp⟩ := perFileLoop_mem_success cancel _ files 0 p h
      exact ⟨fi, tiff_to_svg_one_paths env dir files.length j fi p (Or.inl hp)⟩
    · obtain ⟨j, fi, _, hp⟩ := perFileLoop_mem_trace cancel _ files 0 _ h
      exact ⟨fi, tiff_to_svg_one_paths env dir files.length j fi p (Or.inr hp)⟩
  obtain ⟨fi, rfl⟩ := hform
  have hs := pngPath_suffix dir (splitextRoot fi.name)
  exact ⟨hs, png_suffix_not_svg hs⟩

theorem C10_svg_targets_write_png_witness :
    ".png".data <:+ ("/out/x.png" : String).data ∧
    ¬ ".svg".data <:+ ("/out/x.png" : String).data :=
  C10_svg_targets_write_png envA false [xJpg] "/out" "/out/x.png"
    (Or.inl (Or.inl (by decide)))

end Converter
